import Mathlib

/-!
Verification of the position-management core of the concentrated-liquidity
module (`x/concentrated-liquidity/lp.go`).

The Go code is shallowly embedded as pure state-passing functions:

* `sdk.Dec` (an arbitrary-precision decimal) is modelled as `ℚ`;
  `sdk.Int` as `ℤ`; `Dec.TruncateInt` as `truncateInt` (truncation toward
  zero, `Int.tdiv` of numerator by denominator).
* The KV store reached through `sdk.Context` is modelled as the explicit
  record `State` (pools, tick infos, positions, fee/incentive accumulator
  position entries, bank balances, the position-id counter).  Each keeper
  method takes a `State` and returns the mutated `State`; fallible
  methods return `Except CLError`.
* `ctx.CacheContext()` of `createPosition` is modelled by running the
  speculative steps on a copy of the state and returning that copy only
  from the one success branch (`writeCacheCtx`); every error branch
  returns the state as it was when the cache context was opened, i.e.
  after only the position-id increment, which `createPosition` performs
  on the outer context.
* Functions of this module that the repository's files do not contain
  (the fixed-point math of `internal/math`, the tick/position/accumulator
  keeper helpers, the bank keeper) are modelled from the spec; each such
  definition carries a doc comment starting with `Modelled from the
  spec:`.  For those, a single reward denomination is used for the
  accumulator entries, and collected rewards are credited to a per-owner
  `claimed` ledger.

Events (`emitLiquidityChangeEvent`) are pure observation with no state
effect and are not modelled.
-/

namespace CL

/-- Association-list lookup; the model of reading a key from the KV store. -/
def assocGet {α β : Type} [DecidableEq α] (l : List (α × β)) (k : α) : Option β :=
  match l with
  | [] => none
  | (k₀, v) :: t => if k = k₀ then some v else assocGet t k

/-- Association-list update/insert; the model of writing a key to the KV store. -/
def assocSet {α β : Type} [DecidableEq α] (l : List (α × β)) (k : α) (v : β) :
    List (α × β) :=
  match l with
  | [] => [(k, v)]
  | (k₀, v₀) :: t => if k = k₀ then (k, v) :: t else (k₀, v₀) :: assocSet t k v

/-- Association-list deletion; the model of deleting a key from the KV store. -/
def assocDel {α β : Type} [DecidableEq α] (l : List (α × β)) (k : α) :
    List (α × β) :=
  match l with
  | [] => []
  | (k₀, v₀) :: t => if k = k₀ then assocDel t k else (k₀, v₀) :: assocDel t k

/-- Truncation of a decimal toward zero, the model of `sdk.Dec.TruncateInt`
(used at the end of `updatePosition`, lp.go:239). -/
def truncateInt (q : ℚ) : ℤ :=
  q.num.tdiv q.den

/-- Errors surfaced by the embedded functions.  Each constructor stands for
one of the error values of the Go code (`types.InsufficientLiquidityError`,
`types.InsufficientLiquidityCreatedError`, `types.InitialLiquidityZeroError`,
not-found and validation errors, and the two defensive errors of
`sendCoinsBetweenPoolAndUser` and the bank keeper). -/
inductive CLError : Type where
  | poolNotFound (poolId : Nat)
  | positionNotFound (positionId : Nat)
  | invalidTickRange (lower upper : ℤ)
  | invalidTick (lower upper : ℤ)
  | invalidPrice (price : ℚ)
  | tickNotAligned (tick spacing : ℤ)
  | initialLiquidityZero (amount0 amount1 : ℤ)
  | liquidityDeltaZero
  | insufficientLiquidityCreated (actual minimum : ℤ) (isTokenZero : Bool)
  | insufficientLiquidity (actual available : ℚ)
  | negativeAmount (amount : ℤ)
  | insufficientFunds
deriving DecidableEq

/-- Pool record (the subset of fields the core reads and mutates):
current square-root price and current tick (both zero exactly when the
pool is uninitialized), the immutable precision parameters, the in-range
aggregate liquidity, the two token denominations and the pool's account. -/
structure Pool : Type where
  token0 : Nat
  token1 : Nat
  address : Nat
  currentSqrtPrice : ℚ
  currentTick : ℤ
  tickSpacing : ℤ
  exponentAtPriceOne : ℤ
  liquidity : ℚ
deriving DecidableEq

/-- Position record: pool, owner, tick range, join time and liquidity. -/
structure Position : Type where
  poolId : Nat
  owner : Nat
  lowerTick : ℤ
  upperTick : ℤ
  joinTime : Nat
  liquidity : ℚ
deriving DecidableEq

/-- Per-(pool, tick) bookkeeping record: gross liquidity referencing the
tick and the net delta applied when price crosses it upward. -/
structure TickInfo : Type where
  liquidityGross : ℚ
  liquidityNet : ℚ
deriving DecidableEq

/-- Accumulator-side record of one position (share count and unclaimed
rewards, one reward denomination). -/
structure AccumEntry : Type where
  numShares : ℚ
  unclaimedRewards : ℚ
deriving DecidableEq

/-- The whole persisted state the core touches: pools keyed by pool id,
tick infos keyed by (pool id, tick), positions keyed by position id, fee-
and incentive-accumulator position entries keyed by position id, bank
balances keyed by (account, denomination id), the per-owner total of
collected rewards, and the global position-id counter. -/
structure State : Type where
  pools : List (Nat × Pool)
  ticks : List ((Nat × ℤ) × TickInfo)
  positions : List (Nat × Position)
  feeAccum : List (Nat × AccumEntry)
  incAccum : List (Nat × AccumEntry)
  balances : List ((Nat × Nat) × ℤ)
  claimed : List (Nat × ℚ)
  nextPositionId : Nat
deriving DecidableEq

/-- Result tuple of a successful `createPosition`
(`positionId, actualAmount0, actualAmount1, liquidityDelta, joinTime`). -/
structure CreateResult : Type where
  positionId : Nat
  amount0 : ℤ
  amount1 : ℤ
  liquidityCreated : ℚ
  joinTime : Nat
deriving DecidableEq

/-- Modelled from the spec: the geometric, exponent-scaled tick encoding of
`internal/math` (not in the repository's files).  The square-root price
grid has the rational base `1 + 10^exponentAtPriceOne`. -/
def sqrtBase (e : ℤ) : ℚ :=
  1 + (10 : ℚ) ^ e

/-- Modelled from the spec: square-root price at a tick, geometric in the
tick index. -/
def sqrtPriceAtTick (e tick : ℤ) : ℚ :=
  sqrtBase e ^ tick

/-- Modelled from the spec: the bound of the representable tick range for a
given `exponentAtPriceOne`. -/
def maxTick (e : ℤ) : ℤ :=
  9 * 10 ^ ((-e).toNat + 2)

/-- Modelled from the spec: `validateTickRangeIsValid` (called at lp.go:37
but not in the repository's files): the range must be nonempty, inside the
global bounds, and both ticks multiples of the pool's tick spacing. -/
def validateTickRangeIsValid (tickSpacing e lower upper : ℤ) :
    Except CLError Unit :=
  if upper ≤ lower then .error (.invalidTickRange lower upper)
  else if lower < -maxTick e ∨ maxTick e < upper then
    .error (.invalidTickRange lower upper)
  else if ¬(lower % tickSpacing = 0 ∧ upper % tickSpacing = 0) then
    .error (.invalidTickRange lower upper)
  else .ok ()

/-- Modelled from the spec: `math.TicksToSqrtPrice` (lp.go:42): fails when
the ticks are out of the representable range or `lowerTick ≥ upperTick`,
otherwise maps both ticks to square-root prices. -/
def ticksToSqrtPrice (lower upper e : ℤ) : Except CLError (ℚ × ℚ) :=
  if upper ≤ lower then .error (.invalidTick lower upper)
  else if lower < -maxTick e ∨ maxTick e < upper then
    .error (.invalidTick lower upper)
  else .ok (sqrtPriceAtTick e lower, sqrtPriceAtTick e upper)

/-- Modelled from the spec: `math.PriceToTick` (used by
`initializeInitialPositionForPool`): fails on a non-positive price,
otherwise the greatest representable tick whose price does not exceed the
given price (price at tick `t` is `(sqrtBase e ^ t)^2`). -/
def priceToTick (price : ℚ) (e : ℤ) : Except CLError ℤ :=
  if price ≤ 0 then .error (.invalidPrice price)
  else
    let b := sqrtBase e * sqrtBase e
    .ok ((List.range (2 * (maxTick e).toNat + 1)).foldl
      (fun acc i =>
        let t : ℤ := -(maxTick e) + i
        if b ^ t ≤ price then t else acc)
      (-(maxTick e)))

/-- Modelled from the spec: `sdk.Dec.ApproxSqrt` (used by
`initializeInitialPositionForPool`): the square root at 18 fractional
decimal digits, never failing on the nonnegative inputs it receives. -/
def approxSqrt (q : ℚ) : ℚ :=
  (Nat.sqrt (q * 10 ^ 36).floor.toNat : ℚ) / 10 ^ 18

/-- Modelled from the spec: the token0 side of the liquidity↔amount
conversion over a square-root price interval. -/
def calcAmount0Delta (liq sqrtA sqrtB : ℚ) : ℚ :=
  liq * (sqrtB - sqrtA) / (sqrtA * sqrtB)

/-- Modelled from the spec: the token1 side of the liquidity↔amount
conversion over a square-root price interval. -/
def calcAmount1Delta (liq sqrtA sqrtB : ℚ) : ℚ :=
  liq * (sqrtB - sqrtA)

/-- Modelled from the spec: `pool.CalcActualAmounts` (lp.go:222, not in the
repository's files): the exact decimal token amounts for a liquidity delta
by the three-case formula (current tick below the range, inside it, or at
and above its upper end).  Per the spec's design note the source defers all
rounding to the end of `updatePosition`, so this returns exact decimals. -/
def Pool.calcActualAmounts (pool : Pool) (lowerTick upperTick : ℤ)
    (sqrtPriceLowerTick sqrtPriceUpperTick : ℚ) (liquidityDelta : ℚ) :
    ℚ × ℚ :=
  if pool.currentTick < lowerTick then
    (calcAmount0Delta liquidityDelta sqrtPriceLowerTick sqrtPriceUpperTick, 0)
  else if pool.currentTick < upperTick then
    (calcAmount0Delta liquidityDelta pool.currentSqrtPrice sqrtPriceUpperTick,
     calcAmount1Delta liquidityDelta sqrtPriceLowerTick pool.currentSqrtPrice)
  else
    (0, calcAmount1Delta liquidityDelta sqrtPriceLowerTick sqrtPriceUpperTick)

/-- Modelled from the spec: liquidity obtainable from `amount0` over a
square-root price interval. -/
def liquidity0 (amount : ℤ) (sqrtA sqrtB : ℚ) : ℚ :=
  (amount : ℚ) * (sqrtA * sqrtB) / (sqrtB - sqrtA)

/-- Modelled from the spec: liquidity obtainable from `amount1` over a
square-root price interval. -/
def liquidity1 (amount : ℤ) (sqrtA sqrtB : ℚ) : ℚ :=
  (amount : ℚ) / (sqrtB - sqrtA)

/-- Modelled from the spec: `math.GetLiquidityFromAmounts` (lp.go:66): the
maximum liquidity deployable without exceeding either desired amount, by
the standard three-case formula. -/
def getLiquidityFromAmounts (currentSqrtPrice sqrtL sqrtU : ℚ)
    (amount0 amount1 : ℤ) : ℚ :=
  if currentSqrtPrice ≤ sqrtL then liquidity0 amount0 sqrtL sqrtU
  else if currentSqrtPrice < sqrtU then
    min (liquidity0 amount0 currentSqrtPrice sqrtU)
        (liquidity1 amount1 sqrtL currentSqrtPrice)
  else liquidity1 amount1 sqrtL sqrtU

/-- Modelled from the spec: `pool.UpdateLiquidityIfActivePosition`
(lp.go:227, not in the repository's files): add the delta to the pool's
aggregate liquidity only when the current tick lies in `[lowerTick, upperTick)`. -/
def Pool.updateLiquidityIfActivePosition (pool : Pool)
    (lowerTick upperTick : ℤ) (liquidityDelta : ℚ) : Pool :=
  if lowerTick ≤ pool.currentTick ∧ pool.currentTick < upperTick then
    { pool with liquidity := pool.liquidity + liquidityDelta }
  else pool

/-- Keeper lookup `getPoolById` (lp.go:32). -/
def getPoolById (s : State) (poolId : Nat) : Except CLError Pool :=
  match assocGet s.pools poolId with
  | none => .error (.poolNotFound poolId)
  | some pool => .ok pool

/-- Keeper write `setPool`. -/
def setPool (s : State) (poolId : Nat) (pool : Pool) : State :=
  { s with pools := assocSet s.pools poolId pool }

/-- Keeper lookup `GetPosition` (lp.go:110). -/
def getPosition (s : State) (positionId : Nat) : Except CLError Position :=
  match assocGet s.positions positionId with
  | none => .error (.positionNotFound positionId)
  | some position => .ok position

/-- Keeper lookup `GetPositionLiquidity` (lp.go:127). -/
def getPositionLiquidity (s : State) (positionId : Nat) : Except CLError ℚ :=
  match assocGet s.positions positionId with
  | none => .error (.positionNotFound positionId)
  | some position => .ok position.liquidity

/-- The gross/net liquidity values recorded at a tick (zero when the tick
record was never initialized, matching an absent record's values). -/
def tickLiquidity (s : State) (poolId : Nat) (tick : ℤ) : ℚ × ℚ :=
  let info := (assocGet s.ticks (poolId, tick)).getD ⟨0, 0⟩
  (info.liquidityGross, info.liquidityNet)

/-- Modelled from the spec: `initOrUpdateTick` (lp.go:198/204, not in the
repository's files): loads or creates the `TickInfo`, adds the delta to the
gross liquidity and to the net liquidity with the sign flipped at an upper
boundary; fails when the tick is not a multiple of the pool's tick
spacing.  The current tick drives only fee-growth bookkeeping, which is
outside the modelled state. -/
def initOrUpdateTick (s : State) (poolId : Nat) (currentTick tick : ℤ)
    (liquidityDelta : ℚ) (upper : Bool) : Except CLError State :=
  match getPoolById s poolId with
  | .error e => .error e
  | .ok pool =>
    if tick % pool.tickSpacing ≠ 0 then
      .error (.tickNotAligned tick pool.tickSpacing)
    else
      let info := (assocGet s.ticks (poolId, tick)).getD ⟨0, 0⟩
      let info₁ : TickInfo :=
        { liquidityGross := info.liquidityGross + liquidityDelta,
          liquidityNet := info.liquidityNet +
            (if upper then -liquidityDelta else liquidityDelta) }
      .ok { s with ticks := assocSet s.ticks (poolId, tick) info₁ }

/-- Modelled from the spec: `initOrUpdatePosition` (lp.go:211, not in the
repository's files): creates the position record with the delta as its
liquidity on first call, adds the delta on subsequent calls, and keeps the
incentive-accumulator entry's share count in step (settling leaves the
unclaimed rewards untouched here; reward growth is outside the modelled
state). -/
def initOrUpdatePosition (s : State) (poolId owner : Nat)
    (lowerTick upperTick : ℤ) (liquidityDelta : ℚ) (joinTime : Nat)
    (positionId : Nat) : Except CLError State :=
  match assocGet s.positions positionId with
  | none =>
    let entry := (assocGet s.incAccum positionId).getD ⟨0, 0⟩
    let entry₁ : AccumEntry := { entry with numShares := entry.numShares + liquidityDelta }
    let position₁ : Position :=
      ⟨poolId, owner, lowerTick, upperTick, joinTime, liquidityDelta⟩
    .ok { s with
      positions := assocSet s.positions positionId position₁,
      incAccum := assocSet s.incAccum positionId entry₁ }
  | some position =>
    let entry := (assocGet s.incAccum positionId).getD ⟨0, 0⟩
    let entry₁ : AccumEntry := { entry with numShares := entry.numShares + liquidityDelta }
    let position₁ : Position :=
      { position with liquidity := position.liquidity + liquidityDelta }
    .ok { s with
      positions := assocSet s.positions positionId position₁,
      incAccum := assocSet s.incAccum positionId entry₁ }

/-- Modelled from the spec: `initializeFeeAccumulatorPosition` (lp.go:71,
not in the repository's files): registers the position with the fee
accumulator with zero shares and no unclaimed rewards. -/
def initializeFeeAccumulatorPosition (s : State) (positionId : Nat) : State :=
  { s with feeAccum := assocSet s.feeAccum positionId ⟨0, 0⟩ }

/-- Modelled from the spec: `updateFeeAccumulatorPosition` (lp.go:234, not
in the repository's files): adjusts the position's fee-accumulator share
count by the liquidity delta, keeping its unclaimed rewards. -/
def updateFeeAccumulatorPosition (s : State) (liquidityDelta : ℚ)
    (positionId : Nat) : State :=
  let entry := (assocGet s.feeAccum positionId).getD ⟨0, 0⟩
  let entry₁ : AccumEntry := { entry with numShares := entry.numShares + liquidityDelta }
  { s with feeAccum := assocSet s.feeAccum positionId entry₁ }

/-- Modelled from the spec: `collectIncentives` (lp.go:132/167, not in the
repository's files): reads the position's unclaimed incentive rewards,
zeroes them, and credits them to the owner's collected-rewards ledger. -/
def collectIncentives (s : State) (owner positionId : Nat) :
    Except CLError (ℚ × State) :=
  match assocGet s.incAccum positionId with
  | none => .error (.positionNotFound positionId)
  | some entry =>
    let entry₁ : AccumEntry := { entry with unclaimedRewards := 0 }
    let total := (assocGet s.claimed owner).getD 0 + entry.unclaimedRewards
    .ok (entry.unclaimedRewards,
      { s with
        incAccum := assocSet s.incAccum positionId entry₁,
        claimed := assocSet s.claimed owner total })

/-- Modelled from the spec: `collectFees` (lp.go:163, not in the
repository's files): reads the position's unclaimed fee rewards, zeroes
them, and credits them to the owner's collected-rewards ledger. -/
def collectFees (s : State) (owner positionId : Nat) :
    Except CLError (ℚ × State) :=
  match assocGet s.feeAccum positionId with
  | none => .error (.positionNotFound positionId)
  | some entry =>
    let entry₁ : AccumEntry := { entry with unclaimedRewards := 0 }
    let total := (assocGet s.claimed owner).getD 0 + entry.unclaimedRewards
    .ok (entry.unclaimedRewards,
      { s with
        feeAccum := assocSet s.feeAccum positionId entry₁,
        claimed := assocSet s.claimed owner total })

/-- Modelled from the spec: `deletePosition` (lp.go:171, not in the
repository's files): removes the position record; together with the final
claiming of the full-exit path this clears its fee- and
incentive-accumulator entries, leaving no residual claims. -/
def deletePosition (s : State) (positionId owner poolId : Nat) :
    Except CLError State :=
  match assocGet s.positions positionId with
  | none => .error (.positionNotFound positionId)
  | some _ =>
    .ok { s with
      positions := assocDel s.positions positionId,
      feeAccum := assocDel s.feeAccum positionId,
      incAccum := assocDel s.incAccum positionId }

/-- Bank balance of an account in one denomination (zero when absent). -/
def getBalance (s : State) (acct : Nat) (denom : Nat) : ℤ :=
  (assocGet s.balances (acct, denom)).getD 0

/-- Adjust one bank balance by a delta. -/
def addBalance (s : State) (acct : Nat) (denom : Nat) (delta : ℤ) : State :=
  let bal := getBalance s acct denom + delta
  { s with balances := assocSet s.balances (acct, denom) bal }

/-- Modelled from the spec: one coin's transfer on the opaque custody
ledger (`bankKeeper.SendCoins`, lp.go:253).  A zero amount is dropped (as
`sdk.NewCoins` drops zero coins); otherwise the transfer fails when the
sender's balance is insufficient. -/
def bankSend (s : State) (sender receiver : Nat) (denom : Nat)
    (amount : ℤ) : Except CLError State :=
  if amount = 0 then .ok s
  else if getBalance s sender denom < amount then .error .insufficientFunds
  else .ok (addBalance (addBalance s sender denom (-amount)) receiver denom amount)

/-- Custody transfer between pool and user (lp.go:243): fails fast on a
negative amount, then sends both coins. -/
def sendCoinsBetweenPoolAndUser (s : State) (denom0 denom1 : Nat)
    (amount0 amount1 : ℤ) (sender receiver : Nat) : Except CLError State :=
  if amount0 < 0 then .error (.negativeAmount amount0)
  else if amount1 < 0 then .error (.negativeAmount amount1)
  else
    match bankSend s sender receiver denom1 amount1 with
    | .error e => .error e
    | .ok s₁ => bankSend s₁ sender receiver denom0 amount0

/-- The check `isInitialPositionForPool` (lp.go:263): the pool is
uninitialized exactly when both sentinel fields are zero. -/
def isInitialPositionForPool (initialSqrtPrice : ℚ) (initialTick : ℤ) : Bool :=
  initialSqrtPrice = 0 ∧ initialTick = 0

/-- First-position bootstrapping `initializeInitialPositionForPool`
(lp.go:272): both desired amounts must be strictly positive; the initial
spot price is `amount1Desired / amount0Desired`, the pool's square-root
price its approximate square root, the pool's tick `priceToTick` of the
spot price; the updated pool is persisted. -/
def initializeInitialPositionForPool (s : State) (poolId : Nat) (pool : Pool)
    (amount0Desired amount1Desired : ℤ) : Except CLError (Pool × State) :=
  if ¬(0 < amount0Desired) ∨ ¬(0 < amount1Desired) then
    .error (.initialLiquidityZero amount0Desired amount1Desired)
  else
    let initialSpotPrice : ℚ := (amount1Desired : ℚ) / (amount0Desired : ℚ)
    let initialSqrtPrice := approxSqrt initialSpotPrice
    match priceToTick initialSpotPrice pool.exponentAtPriceOne with
    | .error e => .error e
    | .ok initialTick =>
      let pool₁ := { pool with
        currentSqrtPrice := initialSqrtPrice, currentTick := initialTick }
      .ok (pool₁, setPool s poolId pool₁)

/-- The shared mutation path `updatePosition` (lp.go:187): updates both
tick boundaries, the position record, the pool's aggregate liquidity and
the fee-accumulator entry, and returns the actual amounts truncated toward
zero at this final step.  The returned state is the context as the Go
function leaves it, also on the error paths (mutations already applied
before a failing step stay applied; the caller decides what to keep). -/
def updatePosition (s : State) (poolId owner : Nat) (lowerTick upperTick : ℤ)
    (liquidityDelta : ℚ) (joinTime : Nat) (positionId : Nat) :
    Except CLError (ℤ × ℤ) × State :=
  match getPoolById s poolId with
  | .error e => (.error e, s)
  | .ok pool =>
  match initOrUpdateTick s poolId pool.currentTick lowerTick liquidityDelta false with
  | .error e => (.error e, s)
  | .ok s₁ =>
  match initOrUpdateTick s₁ poolId pool.currentTick upperTick liquidityDelta true with
  | .error e => (.error e, s₁)
  | .ok s₂ =>
  match initOrUpdatePosition s₂ poolId owner lowerTick upperTick liquidityDelta
      joinTime positionId with
  | .error e => (.error e, s₂)
  | .ok s₃ =>
  match ticksToSqrtPrice lowerTick upperTick pool.exponentAtPriceOne with
  | .error e => (.error e, s₃)
  | .ok (sqrtPriceLowerTick, sqrtPriceUpperTick) =>
  let amounts := pool.calcActualAmounts lowerTick upperTick
    sqrtPriceLowerTick sqrtPriceUpperTick liquidityDelta
  let pool₁ := pool.updateLiquidityIfActivePosition lowerTick upperTick liquidityDelta
  let s₄ := setPool s₃ poolId pool₁
  let s₅ := updateFeeAccumulatorPosition s₄ liquidityDelta positionId
  (.ok (truncateInt amounts.1, truncateInt amounts.2), s₅)

/-- The first-position conditional of `createPosition` (lp.go:58-63): when
the pool still carries the zero sentinels, run the bootstrap on the cache
context, otherwise keep the pool and the context as they are. -/
def initialPoolStep (s : State) (poolId : Nat) (pool : Pool)
    (amount0Desired amount1Desired : ℤ) : Except CLError (Pool × State) :=
  if isInitialPositionForPool pool.currentSqrtPrice pool.currentTick then
    initializeInitialPositionForPool s poolId pool amount0Desired amount1Desired
  else .ok (pool, s)

/-- Position creation `createPosition` (lp.go:27).  The position-id
increment happens on the outer context; everything from the
first-position bootstrap through the custody transfer happens on the
cache context, which is written back (`writeCacheCtx`, lp.go:96) only on
the single success path. -/
def createPosition (s : State) (poolId owner : Nat)
    (amount0Desired amount1Desired amount0Min amount1Min : ℤ)
    (lowerTick upperTick : ℤ) (blockTime : Nat) :
    Except CLError CreateResult × State :=
  let joinTime := blockTime
  match getPoolById s poolId with
  | .error e => (.error e, s)
  | .ok pool =>
  match validateTickRangeIsValid pool.tickSpacing pool.exponentAtPriceOne
      lowerTick upperTick with
  | .error e => (.error e, s)
  | .ok _ =>
  match ticksToSqrtPrice lowerTick upperTick pool.exponentAtPriceOne with
  | .error e => (.error e, s)
  | .ok (sqrtPriceLowerTick, sqrtPriceUpperTick) =>
  let positionId := s.nextPositionId
  let sOuter := { s with nextPositionId := s.nextPositionId + 1 }
  match initialPoolStep sOuter poolId pool amount0Desired amount1Desired with
  | .error e => (.error e, sOuter)
  | .ok (pool₁, cache₁) =>
  let liquidityDelta := getLiquidityFromAmounts pool₁.currentSqrtPrice
    sqrtPriceLowerTick sqrtPriceUpperTick amount0Desired amount1Desired
  if liquidityDelta = 0 then (.error .liquidityDeltaZero, sOuter)
  else
  let cache₂ := initializeFeeAccumulatorPosition cache₁ positionId
  match updatePosition cache₂ poolId owner lowerTick upperTick liquidityDelta
      joinTime positionId with
  | (.error e, _) => (.error e, sOuter)
  | (.ok (actualAmount0, actualAmount1), cache₃) =>
  if actualAmount0 < amount0Min then
    (.error (.insufficientLiquidityCreated actualAmount0 amount0Min true), sOuter)
  else if actualAmount1 < amount1Min then
    (.error (.insufficientLiquidityCreated actualAmount1 amount1Min false), sOuter)
  else
  match sendCoinsBetweenPoolAndUser cache₃ pool.token0 pool.token1
      actualAmount0 actualAmount1 owner pool.address with
  | .error e => (.error e, sOuter)
  | .ok cache₄ =>
    (.ok ⟨positionId, actualAmount0, actualAmount1, liquidityDelta, joinTime⟩, cache₄)

/-- Position withdrawal `withdrawPosition` (lp.go:109).  Incentives are
collected before the liquidity-availability check; the liquidity delta is
the negated requested amount; the absolute values of the resulting amounts
are transferred from the pool to the owner; a full withdrawal collects the
final fees and incentives and deletes the position; the returned amounts
are the actual amounts negated. -/
def withdrawPosition (s : State) (owner : Nat) (positionId : Nat)
    (requestedLiquidityAmountToWithdraw : ℚ) :
    Except CLError (ℤ × ℤ) × State :=
  match getPosition s positionId with
  | .error e => (.error e, s)
  | .ok position =>
  match getPoolById s position.poolId with
  | .error e => (.error e, s)
  | .ok pool =>
  match validateTickRangeIsValid pool.tickSpacing pool.exponentAtPriceOne
      position.lowerTick position.upperTick with
  | .error e => (.error e, s)
  | .ok _ =>
  match getPositionLiquidity s positionId with
  | .error e => (.error e, s)
  | .ok availableLiquidity =>
  match collectIncentives s owner positionId with
  | .error e => (.error e, s)
  | .ok (_, s₁) =>
  if availableLiquidity < requestedLiquidityAmountToWithdraw then
    (.error (.insufficientLiquidity requestedLiquidityAmountToWithdraw
      availableLiquidity), s₁)
  else
  let liquidityDelta := -requestedLiquidityAmountToWithdraw
  match updatePosition s₁ position.poolId owner position.lowerTick
      position.upperTick liquidityDelta position.joinTime positionId with
  | (.error e, s₂) => (.error e, s₂)
  | (.ok (actualAmount0, actualAmount1), s₂) =>
  match sendCoinsBetweenPoolAndUser s₂ pool.token0 pool.token1
      |actualAmount0| |actualAmount1| pool.address owner with
  | .error e => (.error e, s₂)
  | .ok s₃ =>
  if requestedLiquidityAmountToWithdraw = availableLiquidity then
    match collectFees s₃ owner positionId with
    | .error e => (.error e, s₃)
    | .ok (_, s₄) =>
    match collectIncentives s₄ owner positionId with
    | .error e => (.error e, s₄)
    | .ok (_, s₅) =>
    match deletePosition s₅ positionId owner position.poolId with
    | .error e => (.error e, s₅)
    | .ok s₆ => (.ok (-actualAmount0, -actualAmount1), s₆)
  else (.ok (-actualAmount0, -actualAmount1), s₃)

/-- One user-facing operation of the position manager, for statements that
range over whole call sequences. -/
inductive Op : Type where
  | create (poolId owner : Nat)
      (amount0Desired amount1Desired amount0Min amount1Min : ℤ)
      (lowerTick upperTick : ℤ) (blockTime : Nat)
  | withdraw (owner : Nat) (positionId : Nat) (requested : ℚ)

/-- Run a sequence of operations, collecting the position ids handed out by
the successful `createPosition` calls, in order. -/
def runOps (s : State) : List Op → State × List Nat
  | [] => (s, [])
  | .create poolId owner a0d a1d a0m a1m lo hi bt :: rest =>
    match createPosition s poolId owner a0d a1d a0m a1m lo hi bt with
    | (.ok r, s₁) =>
      let (s₂, ids) := runOps s₁ rest
      (s₂, r.positionId :: ids)
    | (.error _, s₁) => runOps s₁ rest
  | .withdraw owner positionId requested :: rest =>
    runOps (withdrawPosition s owner positionId requested).2 rest

/-- Base pool of the concrete test scenarios: initialized at square-root
price `3/2` (current tick `0`), tick spacing `1`, exponent-at-price-one `0`
(so the modelled square-root price grid has base `2`), token denominations
`10` and `11`, pool account `0`. -/
def basePool : Pool :=
  { token0 := 10, token1 := 11, address := 0,
    currentSqrtPrice := 3/2, currentTick := 0, tickSpacing := 1,
    exponentAtPriceOne := 0, liquidity := 0 }

/-- Base state of the concrete test scenarios: one pool, no positions, the
prospective owner (account `5`) funded with `100` of each token. -/
def s0 : State :=
  { pools := [(1, basePool)],
    ticks := [], positions := [], feeAccum := [], incAccum := [],
    balances := [((5, 10), 100), ((5, 11), 100)],
    claimed := [], nextPositionId := 1 }

/-- The state after `createPosition s0 1 5 6 6 0 0 (-1) 1 7`: position `1`
over ticks `[-1, 1]` with liquidity `6`, actual amounts `1` of token0 and
`6` of token1 moved from the owner to the pool. -/
def s1 : State :=
  { pools := [(1, { basePool with liquidity := 6 })],
    ticks := [((1, -1), ⟨6, 6⟩), ((1, 1), ⟨6, -6⟩)],
    positions := [(1, ⟨1, 5, -1, 1, 7, 6⟩)],
    feeAccum := [(1, ⟨6, 0⟩)],
    incAccum := [(1, ⟨6, 0⟩)],
    balances := [((5, 10), 99), ((5, 11), 94), ((0, 11), 6), ((0, 10), 1)],
    claimed := [], nextPositionId := 2 }

/-- State with an existing position carrying unclaimed incentive rewards,
for the withdrawal scenarios: position `1` over `[-1, 1]` with liquidity
`6`, incentive entry with `3` unclaimed, pool funded. -/
def s2 : State :=
  { pools := [(1, { basePool with liquidity := 6 })],
    ticks := [((1, -1), ⟨6, 6⟩), ((1, 1), ⟨6, -6⟩)],
    positions := [(1, ⟨1, 5, -1, 1, 7, 6⟩)],
    feeAccum := [(1, ⟨6, 0⟩)],
    incAccum := [(1, ⟨6, 3⟩)],
    balances := [((0, 10), 50), ((0, 11), 50)],
    claimed := [], nextPositionId := 2 }

/-- Pool with both zero sentinels, i.e. uninitialized. -/
def pool4 : Pool :=
  { basePool with currentSqrtPrice := 0, currentTick := 0 }

/-- State with an uninitialized pool and a funded prospective owner, for
the first-position bootstrap scenario. -/
def s4 : State :=
  { pools := [(1, pool4)],
    ticks := [], positions := [], feeAccum := [], incAccum := [],
    balances := [((5, 10), 100), ((5, 11), 100)],
    claimed := [], nextPositionId := 1 }

/-- Pool sitting at tick `5` (square-root price `2^5 = 32`), above the test
position's upper tick. -/
def pool3 : Pool :=
  { basePool with currentTick := 5, currentSqrtPrice := 32 }

/-- State whose pool sits above the position's upper tick, so that a
withdrawal returns zero of token0: position `1` over `[-1, 1]` with
liquidity `6`. -/
def s3 : State :=
  { pools := [(1, pool3)],
    ticks := [((1, -1), ⟨6, 6⟩), ((1, 1), ⟨6, -6⟩)],
    positions := [(1, ⟨1, 5, -1, 1, 7, 6⟩)],
    feeAccum := [(1, ⟨6, 0⟩)],
    incAccum := [(1, ⟨6, 0⟩)],
    balances := [((0, 10), 50), ((0, 11), 50)],
    claimed := [], nextPositionId := 2 }

theorem assocGet_set_self {α β : Type} [DecidableEq α] (l : List (α × β))
    (k : α) (v : β) : assocGet (assocSet l k v) k = some v := by
  induction l with
  | nil => simp [assocGet, assocSet]
  | cons p t ih =>
    by_cases hk : k = p.1
    · simp [assocGet, assocSet, hk]
    · simpa [assocGet, assocSet, hk] using ih

theorem assocGet_set_ne {α β : Type} [DecidableEq α] (l : List (α × β))
    (k k₁ : α) (v : β) (hk : k₁ ≠ k) :
    assocGet (assocSet l k v) k₁ = assocGet l k₁ := by
  induction l with
  | nil => simp [assocGet, assocSet, hk]
  | cons p t ih =>
    by_cases hp : k = p.1
    · subst hp
      simp [assocGet, assocSet, hk]
    · by_cases hq : k₁ = p.1 <;> simp [assocGet, assocSet, hp, hq, ih]

theorem truncateInt_intCast (n : ℤ) : truncateInt (n : ℚ) = n := by
  simp [truncateInt, Rat.num_intCast, Rat.den_intCast, Int.tdiv_one]

theorem truncateInt_neg (q : ℚ) : truncateInt (-q) = -truncateInt q := by
  simp [truncateInt, Rat.neg_num, Rat.neg_den, Int.neg_tdiv]

theorem truncateInt_nonneg {q : ℚ} (h : 0 ≤ q) : 0 ≤ truncateInt q :=
  Int.tdiv_nonneg (Rat.num_nonneg.mpr h) (Int.ofNat_nonneg q.den)

theorem truncateInt_nonpos {q : ℚ} (h : q ≤ 0) : truncateInt q ≤ 0 := by
  have h₁ : 0 ≤ truncateInt (-q) := truncateInt_nonneg (by linarith)
  rw [truncateInt_neg] at h₁
  omega

theorem one_le_sqrtBase (e : ℤ) : 1 ≤ sqrtBase e := by
  have : (0 : ℚ) < (10 : ℚ) ^ e := zpow_pos (by norm_num) e
  simp only [sqrtBase]
  linarith

theorem sqrtPriceAtTick_pos (e t : ℤ) : 0 < sqrtPriceAtTick e t :=
  zpow_pos (lt_of_lt_of_le one_pos (one_le_sqrtBase e)) t

theorem sqrtPriceAtTick_mono (e : ℤ) {t t₁ : ℤ} (h : t ≤ t₁) :
    sqrtPriceAtTick e t ≤ sqrtPriceAtTick e t₁ :=
  zpow_le_zpow_right₀ (one_le_sqrtBase e) h

theorem getPoolById_ok_iff (s : State) (poolId : Nat) (pool : Pool) :
    getPoolById s poolId = .ok pool ↔ assocGet s.pools poolId = some pool := by
  unfold getPoolById
  cases assocGet s.pools poolId <;> simp

theorem getPosition_ok_iff (s : State) (pid : Nat) (p : Position) :
    getPosition s pid = .ok p ↔ assocGet s.positions pid = some p := by
  unfold getPosition
  cases assocGet s.positions pid <;> simp

theorem getPositionLiquidity_of_getPosition (s : State) (pid : Nat)
    (p : Position) (h : getPosition s pid = .ok p) :
    getPositionLiquidity s pid = .ok p.liquidity := by
  rw [getPosition_ok_iff] at h
  unfold getPositionLiquidity
  rw [h]

theorem validateTickRangeIsValid_ok (ts e lo hi : ℤ) (u : Unit)
    (h : validateTickRangeIsValid ts e lo hi = .ok u) :
    lo < hi ∧ lo % ts = 0 ∧ hi % ts = 0 ∧ -maxTick e ≤ lo ∧ hi ≤ maxTick e := by
  unfold validateTickRangeIsValid at h
  split at h
  · exact absurd h (by simp)
  case _ h₁ =>
    split at h
    · exact absurd h (by simp)
    case _ h₂ =>
      split at h
      · exact absurd h (by simp)
      case _ h₃ =>
        rw [not_not] at h₃
        push_neg at h₂
        exact ⟨by omega, h₃.1, h₃.2, h₂.1, h₂.2⟩

theorem ticksToSqrtPrice_ok (lo hi e : ℤ) (sL sU : ℚ)
    (h : ticksToSqrtPrice lo hi e = .ok (sL, sU)) :
    lo < hi ∧ sL = sqrtPriceAtTick e lo ∧ sU = sqrtPriceAtTick e hi := by
  unfold ticksToSqrtPrice at h
  split at h
  · exact absurd h (by simp)
  case _ h₁ =>
    split at h
    · exact absurd h (by simp)
    case _ h₂ =>
      injection h with h₃
      injection h₃ with h₄ h₅
      exact ⟨by omega, h₄.symm, h₅.symm⟩

theorem setPool_pools (s : State) (poolId : Nat) (pool : Pool) :
    (setPool s poolId pool).pools = assocSet s.pools poolId pool := rfl

theorem setPool_rest (s : State) (poolId : Nat) (pool : Pool) :
    (setPool s poolId pool).ticks = s.ticks ∧
    (setPool s poolId pool).positions = s.positions ∧
    (setPool s poolId pool).feeAccum = s.feeAccum ∧
    (setPool s poolId pool).incAccum = s.incAccum ∧
    (setPool s poolId pool).balances = s.balances ∧
    (setPool s poolId pool).claimed = s.claimed ∧
    (setPool s poolId pool).nextPositionId = s.nextPositionId :=
  ⟨rfl, rfl, rfl, rfl, rfl, rfl, rfl⟩

theorem updateFeeAccumulatorPosition_feeAccum (s : State) (δ : ℚ) (pid : Nat) :
    (updateFeeAccumulatorPosition s δ pid).feeAccum =
      assocSet s.feeAccum pid
        ⟨((assocGet s.feeAccum pid).getD ⟨0, 0⟩).numShares + δ,
         ((assocGet s.feeAccum pid).getD ⟨0, 0⟩).unclaimedRewards⟩ := rfl

theorem updateFeeAccumulatorPosition_rest (s : State) (δ : ℚ) (pid : Nat) :
    (updateFeeAccumulatorPosition s δ pid).pools = s.pools ∧
    (updateFeeAccumulatorPosition s δ pid).ticks = s.ticks ∧
    (updateFeeAccumulatorPosition s δ pid).positions = s.positions ∧
    (updateFeeAccumulatorPosition s δ pid).incAccum = s.incAccum ∧
    (updateFeeAccumulatorPosition s δ pid).balances = s.balances ∧
    (updateFeeAccumulatorPosition s δ pid).claimed = s.claimed ∧
    (updateFeeAccumulatorPosition s δ pid).nextPositionId = s.nextPositionId :=
  ⟨rfl, rfl, rfl, rfl, rfl, rfl, rfl⟩

theorem initializeFeeAccumulatorPosition_feeAccum (s : State) (pid : Nat) :
    (initializeFeeAccumulatorPosition s pid).feeAccum =
      assocSet s.feeAccum pid ⟨0, 0⟩ := rfl

theorem initializeFeeAccumulatorPosition_rest (s : State) (pid : Nat) :
    (initializeFeeAccumulatorPosition s pid).pools = s.pools ∧
    (initializeFeeAccumulatorPosition s pid).ticks = s.ticks ∧
    (initializeFeeAccumulatorPosition s pid).positions = s.positions ∧
    (initializeFeeAccumulatorPosition s pid).incAccum = s.incAccum ∧
    (initializeFeeAccumulatorPosition s pid).balances = s.balances ∧
    (initializeFeeAccumulatorPosition s pid).claimed = s.claimed ∧
    (initializeFeeAccumulatorPosition s pid).nextPositionId = s.nextPositionId :=
  ⟨rfl, rfl, rfl, rfl, rfl, rfl, rfl⟩

theorem initOrUpdateTick_ok (s : State) (poolId : Nat) (ct t : ℤ) (δ : ℚ)
    (up : Bool) (s₁ : State)
    (h : initOrUpdateTick s poolId ct t δ up = .ok s₁) :
    ∃ pool, getPoolById s poolId = .ok pool ∧ t % pool.tickSpacing = 0 ∧
      s₁.ticks = (assocSet s.ticks (poolId, t)
        ⟨(tickLiquidity s poolId t).1 + δ,
         (tickLiquidity s poolId t).2 + (if up then -δ else δ)⟩) ∧
      s₁.pools = s.pools ∧ s₁.positions = s.positions ∧
      s₁.feeAccum = s.feeAccum ∧ s₁.incAccum = s.incAccum ∧
      s₁.balances = s.balances ∧ s₁.claimed = s.claimed ∧
      s₁.nextPositionId = s.nextPositionId := by
  unfold initOrUpdateTick at h
  split at h
  · exact absurd h (by simp)
  case _ pool hpool =>
    split at h
    · exact absurd h (by simp)
    case _ hmod =>
      injection h with h₁
      subst h₁
      exact ⟨pool, hpool, by omega, rfl, rfl, rfl, rfl, rfl, rfl, rfl, rfl⟩

theorem initOrUpdatePosition_ok (s : State) (poolId owner : Nat)
    (lo hi : ℤ) (δ : ℚ) (jt pid : Nat) (s₁ : State)
    (h : initOrUpdatePosition s poolId owner lo hi δ jt pid = .ok s₁) :
    s₁.positions = assocSet s.positions pid
      (match assocGet s.positions pid with
       | none => (⟨poolId, owner, lo, hi, jt, δ⟩ : Position)
       | some p => { p with liquidity := p.liquidity + δ }) ∧
    s₁.incAccum = assocSet s.incAccum pid
      ⟨((assocGet s.incAccum pid).getD ⟨0, 0⟩).numShares + δ,
       ((assocGet s.incAccum pid).getD ⟨0, 0⟩).unclaimedRewards⟩ ∧
    s₁.pools = s.pools ∧ s₁.ticks = s.ticks ∧
    s₁.feeAccum = s.feeAccum ∧ s₁.balances = s.balances ∧
    s₁.claimed = s.claimed ∧ s₁.nextPositionId = s.nextPositionId := by
  unfold initOrUpdatePosition at h
  split at h <;>
    (injection h with h₁; subst h₁;
     exact ⟨rfl, rfl, rfl, rfl, rfl, rfl, rfl, rfl⟩)

theorem collectIncentives_ok (s : State) (owner pid : Nat) (rw : ℚ)
    (s₁ : State) (h : collectIncentives s owner pid = .ok (rw, s₁)) :
    ∃ entry, assocGet s.incAccum pid = some entry ∧
      rw = entry.unclaimedRewards ∧
      s₁.incAccum = assocSet s.incAccum pid ⟨entry.numShares, 0⟩ ∧
      s₁.claimed = assocSet s.claimed owner
        ((assocGet s.claimed owner).getD 0 + entry.unclaimedRewards) ∧
      s₁.pools = s.pools ∧ s₁.ticks = s.ticks ∧
      s₁.positions = s.positions ∧ s₁.feeAccum = s.feeAccum ∧
      s₁.balances = s.balances ∧ s₁.nextPositionId = s.nextPositionId := by
  unfold collectIncentives at h
  split at h
  · exact absurd h (by simp)
  case _ entry heq =>
    injection h with h₁
    injection h₁ with h₂ h₃
    subst h₃
    exact ⟨entry, heq, h₂.symm, rfl, rfl, rfl, rfl, rfl, rfl, rfl, rfl⟩

theorem collectFees_ok (s : State) (owner pid : Nat) (rw : ℚ)
    (s₁ : State) (h : collectFees s owner pid = .ok (rw, s₁)) :
    ∃ entry, assocGet s.feeAccum pid = some entry ∧
      rw = entry.unclaimedRewards ∧
      s₁.feeAccum = assocSet s.feeAccum pid ⟨entry.numShares, 0⟩ ∧
      s₁.claimed = assocSet s.claimed owner
        ((assocGet s.claimed owner).getD 0 + entry.unclaimedRewards) ∧
      s₁.pools = s.pools ∧ s₁.ticks = s.ticks ∧
      s₁.positions = s.positions ∧ s₁.incAccum = s.incAccum ∧
      s₁.balances = s.balances ∧ s₁.nextPositionId = s.nextPositionId := by
  unfold collectFees at h
  split at h
  · exact absurd h (by simp)
  case _ entry heq =>
    injection h with h₁
    injection h₁ with h₂ h₃
    subst h₃
    exact ⟨entry, heq, h₂.symm, rfl, rfl, rfl, rfl, rfl, rfl, rfl, rfl⟩

theorem deletePosition_ok (s : State) (pid owner poolId : Nat) (s₁ : State)
    (h : deletePosition s pid owner poolId = .ok s₁) :
    s₁.positions = assocDel s.positions pid ∧
    s₁.feeAccum = assocDel s.feeAccum pid ∧
    s₁.incAccum = assocDel s.incAccum pid ∧
    s₁.pools = s.pools ∧ s₁.ticks = s.ticks ∧
    s₁.balances = s.balances ∧ s₁.claimed = s.claimed ∧
    s₁.nextPositionId = s.nextPositionId := by
  unfold deletePosition at h
  split at h
  · exact absurd h (by simp)
  · injection h with h₁
    subst h₁
    exact ⟨rfl, rfl, rfl, rfl, rfl, rfl, rfl, rfl⟩

theorem bankSend_ok_fields (s : State) (snd rcv d : Nat) (amt : ℤ)
    (s₁ : State) (h : bankSend s snd rcv d amt = .ok s₁) :
    s₁.pools = s.pools ∧ s₁.ticks = s.ticks ∧ s₁.positions = s.positions ∧
      s₁.feeAccum = s.feeAccum ∧ s₁.incAccum = s.incAccum ∧
      s₁.claimed = s.claimed ∧ s₁.nextPositionId = s.nextPositionId := by
  unfold bankSend at h
  split at h
  · injection h with h₁
    subst h₁
    exact ⟨rfl, rfl, rfl, rfl, rfl, rfl, rfl⟩
  · split at h
    · exact absurd h (by simp)
    · injection h with h₁
      subst h₁
      exact ⟨rfl, rfl, rfl, rfl, rfl, rfl, rfl⟩

theorem getBalance_addBalance_self (s : State) (a : Nat) (d : Nat) (δ : ℤ) :
    getBalance (addBalance s a d δ) a d = getBalance s a d + δ := by
  simp only [getBalance, addBalance, assocGet_set_self, Option.getD_some]

theorem getBalance_addBalance_ne (s : State) (a a₁ : Nat) (d d₁ : Nat)
    (δ : ℤ) (hne : (a₁, d₁) ≠ (a, d)) :
    getBalance (addBalance s a d δ) a₁ d₁ = getBalance s a₁ d₁ := by
  simp only [getBalance, addBalance, assocGet_set_ne _ _ _ _ hne]

theorem bankSend_ok_balances (s : State) (snd rcv d : Nat) (amt : ℤ)
    (s₁ : State) (h : bankSend s snd rcv d amt = .ok s₁) (hne : snd ≠ rcv) :
    getBalance s₁ rcv d = getBalance s rcv d + amt ∧
    getBalance s₁ snd d = getBalance s snd d - amt ∧
    ∀ a₁ d₁, (a₁, d₁) ≠ (snd, d) → (a₁, d₁) ≠ (rcv, d) →
      getBalance s₁ a₁ d₁ = getBalance s a₁ d₁ := by
  unfold bankSend at h
  split at h
  case _ h0 =>
    injection h with h₁
    subst h₁ h0
    exact ⟨by omega, by omega, fun a₁ d₁ _ _ => rfl⟩
  · split at h
    · exact absurd h (by simp)
    · injection h with h₁
      subst h₁
      have hrs : (rcv, d) ≠ (snd, d) := by simp [hne.symm]
      refine ⟨?_, ?_, ?_⟩
      · rw [getBalance_addBalance_self,
          getBalance_addBalance_ne _ _ _ _ _ _ hrs]
      · rw [getBalance_addBalance_ne _ _ _ _ _ _ hrs.symm,
          getBalance_addBalance_self]
        ring
      · intro a₁ d₁ h₁ h₂
        rw [getBalance_addBalance_ne _ _ _ _ _ _ h₂,
          getBalance_addBalance_ne _ _ _ _ _ _ h₁]

theorem sendCoins_ok_fields (s : State) (d0 d1 : Nat) (a0 a1 : ℤ)
    (snd rcv : Nat) (s₁ : State)
    (h : sendCoinsBetweenPoolAndUser s d0 d1 a0 a1 snd rcv = .ok s₁) :
    0 ≤ a0 ∧ 0 ≤ a1 ∧
    s₁.pools = s.pools ∧ s₁.ticks = s.ticks ∧ s₁.positions = s.positions ∧
      s₁.feeAccum = s.feeAccum ∧ s₁.incAccum = s.incAccum ∧
      s₁.claimed = s.claimed ∧ s₁.nextPositionId = s.nextPositionId := by
  unfold sendCoinsBetweenPoolAndUser at h
  split at h
  · exact absurd h (by simp)
  case _ h0 =>
    split at h
    · exact absurd h (by simp)
    case _ h1 =>
      split at h
      · exact absurd h (by simp)
      case _ sMid hmid =>
        obtain ⟨e₁, e₂, e₃, e₄, e₅, e₆, e₇⟩ := bankSend_ok_fields _ _ _ _ _ _ hmid
        obtain ⟨f₁, f₂, f₃, f₄, f₅, f₆, f₇⟩ := bankSend_ok_fields _ _ _ _ _ _ h
        refine ⟨by omega, by omega, ?_, ?_, ?_, ?_, ?_, ?_, ?_⟩ <;>
          simp [f₁, f₂, f₃, f₄, f₅, f₆, f₇, e₁, e₂, e₃, e₄, e₅, e₆, e₇]

theorem updatePosition_ok_spec
    (s : State) (poolId owner : Nat) (lo hi : ℤ) (δ : ℚ) (jt pid : Nat)
    (a0 a1 : ℤ) (s₁ : State)
    (h : updatePosition s poolId owner lo hi δ jt pid = (.ok (a0, a1), s₁)) :
    ∃ pool, getPoolById s poolId = .ok pool ∧ lo < hi ∧
      ticksToSqrtPrice lo hi pool.exponentAtPriceOne =
        .ok (sqrtPriceAtTick pool.exponentAtPriceOne lo,
             sqrtPriceAtTick pool.exponentAtPriceOne hi) ∧
      a0 = truncateInt (pool.calcActualAmounts lo hi
        (sqrtPriceAtTick pool.exponentAtPriceOne lo)
        (sqrtPriceAtTick pool.exponentAtPriceOne hi) δ).1 ∧
      a1 = truncateInt (pool.calcActualAmounts lo hi
        (sqrtPriceAtTick pool.exponentAtPriceOne lo)
        (sqrtPriceAtTick pool.exponentAtPriceOne hi) δ).2 ∧
      s₁.pools = assocSet s.pools poolId
        (pool.updateLiquidityIfActivePosition lo hi δ) ∧
      s₁.ticks = (assocSet (assocSet s.ticks (poolId, lo)
          ⟨(tickLiquidity s poolId lo).1 + δ, (tickLiquidity s poolId lo).2 + δ⟩)
        (poolId, hi)
          ⟨(tickLiquidity s poolId hi).1 + δ, (tickLiquidity s poolId hi).2 - δ⟩) ∧
      s₁.positions = assocSet s.positions pid
        (match assocGet s.positions pid with
         | none => (⟨poolId, owner, lo, hi, jt, δ⟩ : Position)
         | some p => { p with liquidity := p.liquidity + δ }) ∧
      s₁.incAccum = assocSet s.incAccum pid
        ⟨((assocGet s.incAccum pid).getD ⟨0, 0⟩).numShares + δ,
         ((assocGet s.incAccum pid).getD ⟨0, 0⟩).unclaimedRewards⟩ ∧
      s₁.feeAccum = assocSet s.feeAccum pid
        ⟨((assocGet s.feeAccum pid).getD ⟨0, 0⟩).numShares + δ,
         ((assocGet s.feeAccum pid).getD ⟨0, 0⟩).unclaimedRewards⟩ ∧
      s₁.balances = s.balances ∧ s₁.claimed = s.claimed ∧
      s₁.nextPositionId = s.nextPositionId := by
  unfold updatePosition at h
  iterate 10 all_goals (first | split at h | (try simp only [] at h))
  all_goals try (injection h with h₁ h₂; exact Except.noConfusion h₁)
  rename_i xA pool hpool xB sA htick1 xC sB htick2 xD sC hpos xE sL sU hsqrt
  obtain ⟨hlh, hsL, hsU⟩ := ticksToSqrtPrice_ok _ _ _ _ _ hsqrt
  subst hsL
  subst hsU
  obtain ⟨poolA, hpoolA, hmodA, hticksA, hpoolsA, hposA, hfeeA, hincA, hbalA,
    hclA, hnidA⟩ := initOrUpdateTick_ok _ _ _ _ _ _ _ htick1
  obtain ⟨poolB, hpoolB, hmodB, hticksB, hpoolsB, hposB, hfeeB, hincB, hbalB,
    hclB, hnidB⟩ := initOrUpdateTick_ok _ _ _ _ _ _ _ htick2
  obtain ⟨hposC, hincC, hpoolsC, hticksC, hfeeC, hbalC, hclC, hnidC⟩ :=
    initOrUpdatePosition_ok _ _ _ _ _ _ _ _ _ hpos
  injection h with h₁ h₂
  injection h₁ with h₃
  injection h₃ with ha0 ha1
  have hne : ((poolId, hi) : Nat × ℤ) ≠ (poolId, lo) := by
    simp only [ne_eq, Prod.mk.injEq, not_and]
    intro _
    omega
  have htlA : tickLiquidity sA poolId hi = tickLiquidity s poolId hi := by
    simp only [tickLiquidity]
    rw [hticksA, assocGet_set_ne _ _ _ _ hne]
  refine ⟨pool, hpool, hlh, hsqrt, ha0.symm, ha1.symm, ?_, ?_, ?_, ?_, ?_, ?_, ?_, ?_⟩
  · rw [← h₂, (updateFeeAccumulatorPosition_rest _ _ _).1, setPool_pools,
      hpoolsC, hpoolsB, hpoolsA]
  · rw [← h₂, (updateFeeAccumulatorPosition_rest _ _ _).2.1,
      (setPool_rest _ _ _).1, hticksC, hticksB, htlA, hticksA]
    simp [sub_eq_add_neg]
  · rw [← h₂, (updateFeeAccumulatorPosition_rest _ _ _).2.2.1,
      (setPool_rest _ _ _).2.1, hposC, hposB, hposA]
  · rw [← h₂, (updateFeeAccumulatorPosition_rest _ _ _).2.2.2.1,
      (setPool_rest _ _ _).2.2.2.1, hincC, hincB, hincA]
  · rw [← h₂, updateFeeAccumulatorPosition_feeAccum,
      (setPool_rest _ _ _).2.2.1, hfeeC, hfeeB, hfeeA]
  · rw [← h₂, (updateFeeAccumulatorPosition_rest _ _ _).2.2.2.2.1,
      (setPool_rest _ _ _).2.2.2.2.1, hbalC, hbalB, hbalA]
  · rw [← h₂, (updateFeeAccumulatorPosition_rest _ _ _).2.2.2.2.2.1,
      (setPool_rest _ _ _).2.2.2.2.2.1, hclC, hclB, hclA]
  · rw [← h₂, (updateFeeAccumulatorPosition_rest _ _ _).2.2.2.2.2.2,
      (setPool_rest _ _ _).2.2.2.2.2.2, hnidC, hnidB, hnidA]

theorem assocGet_del_self {α β : Type} [DecidableEq α] (l : List (α × β))
    (k : α) : assocGet (assocDel l k) k = none := by
  induction l with
  | nil => simp [assocGet, assocDel]
  | cons p t ih =>
    by_cases hp : k = p.1
    · simpa [assocDel, hp] using ih
    · simpa [assocGet, assocDel, hp] using ih

theorem calcActualAmounts_neg (pool : Pool) (lo hi : ℤ) (sL sU δ : ℚ) :
    pool.calcActualAmounts lo hi sL sU (-δ) =
      (-(pool.calcActualAmounts lo hi sL sU δ).1,
       -(pool.calcActualAmounts lo hi sL sU δ).2) := by
  simp only [Pool.calcActualAmounts, calcAmount0Delta, calcAmount1Delta]
  split_ifs <;> simp [Prod.mk.injEq] <;> ring

theorem calcActualAmounts_nonpos (pool : Pool) (lo hi : ℤ) (sL sU δ : ℚ)
    (hδ : δ ≤ 0) (h0 : 0 < sL) (hLU : sL ≤ sU)
    (hc : lo ≤ pool.currentTick → pool.currentTick < hi →
      sL ≤ pool.currentSqrtPrice ∧ pool.currentSqrtPrice ≤ sU) :
    (pool.calcActualAmounts lo hi sL sU δ).1 ≤ 0 ∧
    (pool.calcActualAmounts lo hi sL sU δ).2 ≤ 0 := by
  have hU : 0 < sU := lt_of_lt_of_le h0 hLU
  simp only [Pool.calcActualAmounts, calcAmount0Delta, calcAmount1Delta]
  split_ifs with h₁ h₂
  · constructor
    · apply div_nonpos_of_nonpos_of_nonneg
      · exact mul_nonpos_of_nonpos_of_nonneg hδ (by linarith)
      · positivity
    · simp
  · obtain ⟨hcl, hcu⟩ := hc (by omega) h₂
    have hc0 : 0 < pool.currentSqrtPrice := lt_of_lt_of_le h0 hcl
    constructor
    · apply div_nonpos_of_nonpos_of_nonneg
      · exact mul_nonpos_of_nonpos_of_nonneg hδ (by linarith)
      · positivity
    · exact mul_nonpos_of_nonpos_of_nonneg hδ (by linarith)
  · exact ⟨le_refl 0, mul_nonpos_of_nonpos_of_nonneg hδ (by linarith)⟩

theorem calcActualAmounts_nonneg (pool : Pool) (lo hi : ℤ) (sL sU δ : ℚ)
    (hδ : 0 ≤ δ) (h0 : 0 < sL) (hLU : sL ≤ sU)
    (hc : lo ≤ pool.currentTick → pool.currentTick < hi →
      sL ≤ pool.currentSqrtPrice ∧ pool.currentSqrtPrice ≤ sU) :
    0 ≤ (pool.calcActualAmounts lo hi sL sU δ).1 ∧
    0 ≤ (pool.calcActualAmounts lo hi sL sU δ).2 := by
  have h := calcActualAmounts_nonpos pool lo hi sL sU (-δ) (by linarith) h0 hLU hc
  rw [calcActualAmounts_neg] at h
  have h₁ : -(pool.calcActualAmounts lo hi sL sU δ).1 ≤ 0 := h.1
  have h₂ : -(pool.calcActualAmounts lo hi sL sU δ).2 ≤ 0 := h.2
  constructor <;> linarith

theorem tickLiquidity_congr (s s₁ : State) (h : s₁.ticks = s.ticks)
    (poolId : Nat) (t : ℤ) :
    tickLiquidity s₁ poolId t = tickLiquidity s poolId t := by
  simp only [tickLiquidity, h]

theorem initializeInitialPositionForPool_ok (s : State) (poolId : Nat)
    (pool : Pool) (a0d a1d : ℤ) (pool₁ : Pool) (s₁ : State)
    (h : initializeInitialPositionForPool s poolId pool a0d a1d = .ok (pool₁, s₁)) :
    0 < a0d ∧ 0 < a1d ∧
    ∃ t₀, priceToTick ((a1d : ℚ) / (a0d : ℚ)) pool.exponentAtPriceOne = .ok t₀ ∧
      pool₁ = { pool with
        currentSqrtPrice := approxSqrt ((a1d : ℚ) / (a0d : ℚ)),
        currentTick := t₀ } ∧
      s₁.pools = assocSet s.pools poolId pool₁ ∧
      s₁.ticks = s.ticks ∧ s₁.positions = s.positions ∧
      s₁.feeAccum = s.feeAccum ∧ s₁.incAccum = s.incAccum ∧
      s₁.balances = s.balances ∧ s₁.claimed = s.claimed ∧
      s₁.nextPositionId = s.nextPositionId := by
  unfold initializeInitialPositionForPool at h
  split at h
  · exact absurd h (by simp)
  case _ hpos =>
    simp only [] at h
    split at h
    · exact absurd h (by simp)
    case _ t₀ hp =>
      push_neg at hpos
      injection h with h₁
      injection h₁ with h₂ h₃
      subst h₂
      subst h₃
      exact ⟨hpos.1, hpos.2, t₀, hp, rfl, rfl, rfl, rfl, rfl, rfl, rfl, rfl, rfl⟩

theorem createPosition_ok_spec
    (s : State) (poolId owner : Nat) (a0d a1d a0m a1m lo hi : ℤ) (bt : Nat)
    (r : CreateResult) (s₁ : State)
    (hfresh : assocGet s.positions s.nextPositionId = none)
    (h : createPosition s poolId owner a0d a1d a0m a1m lo hi bt = (.ok r, s₁)) :
    ∃ pool pool₁,
      getPoolById s poolId = .ok pool ∧
      validateTickRangeIsValid pool.tickSpacing pool.exponentAtPriceOne lo hi
        = .ok () ∧
      lo < hi ∧
      pool₁.exponentAtPriceOne = pool.exponentAtPriceOne ∧
      pool₁.tickSpacing = pool.tickSpacing ∧
      pool₁.token0 = pool.token0 ∧ pool₁.token1 = pool.token1 ∧
      pool₁.address = pool.address ∧
      (isInitialPositionForPool pool.currentSqrtPrice pool.currentTick = false →
        pool₁ = pool) ∧
      (isInitialPositionForPool pool.currentSqrtPrice pool.currentTick = true →
        0 < a0d ∧ 0 < a1d ∧
        ∃ t₀, priceToTick ((a1d : ℚ) / (a0d : ℚ)) pool.exponentAtPriceOne
            = .ok t₀ ∧
          pool₁.currentSqrtPrice = approxSqrt ((a1d : ℚ) / (a0d : ℚ)) ∧
          pool₁.currentTick = t₀) ∧
      r.positionId = s.nextPositionId ∧
      r.joinTime = bt ∧
      r.liquidityCreated = getLiquidityFromAmounts pool₁.currentSqrtPrice
        (sqrtPriceAtTick pool.exponentAtPriceOne lo)
        (sqrtPriceAtTick pool.exponentAtPriceOne hi) a0d a1d ∧
      r.liquidityCreated ≠ 0 ∧
      r.amount0 = truncateInt (pool₁.calcActualAmounts lo hi
        (sqrtPriceAtTick pool.exponentAtPriceOne lo)
        (sqrtPriceAtTick pool.exponentAtPriceOne hi) r.liquidityCreated).1 ∧
      r.amount1 = truncateInt (pool₁.calcActualAmounts lo hi
        (sqrtPriceAtTick pool.exponentAtPriceOne lo)
        (sqrtPriceAtTick pool.exponentAtPriceOne hi) r.liquidityCreated).2 ∧
      a0m ≤ r.amount0 ∧ a1m ≤ r.amount1 ∧
      assocGet s₁.pools poolId =
        some (pool₁.updateLiquidityIfActivePosition lo hi r.liquidityCreated) ∧
      assocGet s₁.positions r.positionId =
        some ⟨poolId, owner, lo, hi, bt, r.liquidityCreated⟩ ∧
      (∀ k, k ≠ r.positionId → assocGet s₁.positions k = assocGet s.positions k) ∧
      assocGet s₁.feeAccum r.positionId = some ⟨r.liquidityCreated, 0⟩ ∧
      (∃ en : AccumEntry, assocGet s₁.incAccum r.positionId = some en) ∧
      tickLiquidity s₁ poolId lo =
        ((tickLiquidity s poolId lo).1 + r.liquidityCreated,
         (tickLiquidity s poolId lo).2 + r.liquidityCreated) ∧
      tickLiquidity s₁ poolId hi =
        ((tickLiquidity s poolId hi).1 + r.liquidityCreated,
         (tickLiquidity s poolId hi).2 - r.liquidityCreated) ∧
      (∀ k, k ≠ (poolId, lo) → k ≠ (poolId, hi) →
        assocGet s₁.ticks k = assocGet s.ticks k) ∧
      s₁.claimed = s.claimed ∧
      s₁.nextPositionId = s.nextPositionId + 1 := by
  unfold createPosition at h
  iterate 14 all_goals (first | split at h | (try simp only [] at h))
  all_goals try (injection h with h₁ h₂; exact Except.noConfusion h₁)
  rename_i xA pool hpool xB uu hval xC sL sU hsqrt xD pool₁ cache₁ hinit hδ
    xE a0v a1v cache₃ hupd h0m h1m xF cache₄ hsend
  obtain ⟨hlh, hsL, hsU⟩ := ticksToSqrtPrice_ok _ _ _ _ _ hsqrt
  subst hsL
  subst hsU
  injection h with h₁ h₂
  injection h₁ with h₃
  subst h₂
  subst h₃
  cases uu
  -- characterize the speculative base state reached before updatePosition
  have hcache : cache₁.ticks = s.ticks ∧ cache₁.positions = s.positions ∧
      cache₁.incAccum = s.incAccum ∧ cache₁.feeAccum = s.feeAccum ∧
      cache₁.balances = s.balances ∧ cache₁.claimed = s.claimed ∧
      cache₁.nextPositionId = s.nextPositionId + 1 ∧
      assocGet cache₁.pools poolId = some pool₁ ∧
      pool₁.exponentAtPriceOne = pool.exponentAtPriceOne ∧
      pool₁.tickSpacing = pool.tickSpacing ∧
      pool₁.token0 = pool.token0 ∧ pool₁.token1 = pool.token1 ∧
      pool₁.address = pool.address ∧
      (isInitialPositionForPool pool.currentSqrtPrice pool.currentTick = false →
        pool₁ = pool) ∧
      (isInitialPositionForPool pool.currentSqrtPrice pool.currentTick = true →
        0 < a0d ∧ 0 < a1d ∧
        ∃ t₀, priceToTick ((a1d : ℚ) / (a0d : ℚ)) pool.exponentAtPriceOne
            = .ok t₀ ∧
          pool₁.currentSqrtPrice = approxSqrt ((a1d : ℚ) / (a0d : ℚ)) ∧
          pool₁.currentTick = t₀) := by
    unfold initialPoolStep at hinit
    split at hinit
    case _ hini =>
      obtain ⟨hp0, hp1, t₀, hpt, hpool₁, hcp, hct, hcpos, hcfee, hcinc, hcbal,
        hccl, hcnid⟩ := initializeInitialPositionForPool_ok _ _ _ _ _ _ _ hinit
      subst hpool₁
      refine ⟨hct, hcpos, hcinc, hcfee, hcbal, hccl, hcnid, ?_, rfl, rfl, rfl,
        rfl, rfl, ?_, ?_⟩
      · rw [hcp, assocGet_set_self]
      · intro hfalse
        rw [hini] at hfalse
        exact absurd hfalse (by simp)
      · intro _
        exact ⟨hp0, hp1, t₀, hpt, rfl, rfl⟩
    case _ hini =>
      injection hinit with h₄
      injection h₄ with h₅ h₆
      subst h₅
      subst h₆
      rw [getPoolById_ok_iff] at hpool
      simp only [Bool.not_eq_true] at hini
      exact ⟨rfl, rfl, rfl, rfl, rfl, rfl, rfl, hpool, rfl, rfl, rfl, rfl, rfl,
        fun _ => rfl, fun htrue => absurd htrue (by simp [hini])⟩
  obtain ⟨hcT, hcP, hcI, hcF, hcB, hcC, hcN, hcPool, hEx, hTs, hT0, hT1, hAd,
    hNoIni, hIni⟩ := hcache
  -- invert the updatePosition success inside the cache context
  obtain ⟨poolU, hpoolU, hlhU, hsqrtU, ha0, ha1, uPools, uTicks, uPos, uInc,
    uFee, uBal, uCl, uNid⟩ := updatePosition_ok_spec _ _ _ _ _ _ _ _ _ _ _ hupd
  rw [getPoolById_ok_iff, (initializeFeeAccumulatorPosition_rest _ _).1,
    hcPool] at hpoolU
  injection hpoolU with hpoolU
  subst hpoolU
  obtain ⟨hs0, hs1, sPools, sTicks, sPos, sFee, sInc, sCl, sNid⟩ :=
    sendCoins_ok_fields _ _ _ _ _ _ _ _ hsend
  have hval' : validateTickRangeIsValid pool.tickSpacing
      pool.exponentAtPriceOne lo hi = .ok () := hval
  have hneqHL : ((poolId, hi) : Nat × ℤ) ≠ (poolId, lo) := by
    simp only [ne_eq, Prod.mk.injEq, not_and]
    intro _
    omega
  have hneqLH : ((poolId, lo) : Nat × ℤ) ≠ (poolId, hi) := by
    simp only [ne_eq, Prod.mk.injEq, not_and]
    intro _
    omega
  have hc₂T : (initializeFeeAccumulatorPosition cache₁ s.nextPositionId).ticks
      = s.ticks := by
    rw [(initializeFeeAccumulatorPosition_rest _ _).2.1, hcT]
  have htlLo := tickLiquidity_congr s
    (initializeFeeAccumulatorPosition cache₁ s.nextPositionId) hc₂T poolId lo
  have htlHi := tickLiquidity_congr s
    (initializeFeeAccumulatorPosition cache₁ s.nextPositionId) hc₂T poolId hi
  rw [htlLo, htlHi, hc₂T] at uTicks
  have hc₂I : (initializeFeeAccumulatorPosition cache₁
      s.nextPositionId).incAccum = s.incAccum := by
    rw [(initializeFeeAccumulatorPosition_rest _ _).2.2.2.1, hcI]
  rw [hc₂I] at uInc
  refine ⟨pool, pool₁, hpool, hval', hlh, hEx, hTs, hT0, hT1, hAd, hNoIni,
    hIni, rfl, rfl, rfl, hδ, ?_, ?_, ?_, ?_, ?_, ?_, ?_, ?_, ?_,
    ?_, ?_, ?_, ?_, ?_⟩
  · show a0v = _
    rw [ha0, hEx]
  · show a1v = _
    rw [ha1, hEx]
  · show a0m ≤ a0v
    omega
  · show a1m ≤ a1v
    omega
  · show assocGet cache₄.pools poolId = _
    rw [sPools, uPools, assocGet_set_self]
  · show assocGet cache₄.positions s.nextPositionId = _
    rw [sPos, uPos, (initializeFeeAccumulatorPosition_rest _ _).2.2.1, hcP,
      hfresh, assocGet_set_self]
  · intro k hk
    rw [sPos, uPos, (initializeFeeAccumulatorPosition_rest _ _).2.2.1, hcP,
      assocGet_set_ne _ _ _ _ hk]
  · show assocGet cache₄.feeAccum s.nextPositionId = _
    rw [sFee, uFee, initializeFeeAccumulatorPosition_feeAccum,
      assocGet_set_self, assocGet_set_self]
    simp
  · exact ⟨_, by rw [sInc, uInc, assocGet_set_self]⟩
  · show tickLiquidity cache₄ poolId lo = _
    simp only [tickLiquidity]
    rw [sTicks, uTicks, assocGet_set_ne _ _ _ _ hneqLH, assocGet_set_self]
    simp [tickLiquidity]
  · show tickLiquidity cache₄ poolId hi = _
    simp only [tickLiquidity]
    rw [sTicks, uTicks, assocGet_set_self]
    simp [tickLiquidity]
  · intro k hkLo hkHi
    rw [sTicks, uTicks, assocGet_set_ne _ _ _ _ hkHi,
      assocGet_set_ne _ _ _ _ hkLo]
  · rw [sCl, uCl, (initializeFeeAccumulatorPosition_rest _ _).2.2.2.2.2.1, hcC]
  · rw [sNid, uNid, (initializeFeeAccumulatorPosition_rest _ _).2.2.2.2.2.2,
      hcN]

theorem withdrawPosition_ok_spec
    (s : State) (owner pid : Nat) (req : ℚ) (w0 w1 : ℤ) (s₂ : State)
    (h : withdrawPosition s owner pid req = (.ok (w0, w1), s₂)) :
    ∃ position pool, getPosition s pid = .ok position ∧
      getPoolById s position.poolId = .ok pool ∧
      req ≤ position.liquidity ∧
      ∃ rw₀ sInc a0 a1 sUpd sSent,
        collectIncentives s owner pid = .ok (rw₀, sInc) ∧
        updatePosition sInc position.poolId owner position.lowerTick
          position.upperTick (-req) position.joinTime pid =
          (.ok (a0, a1), sUpd) ∧
        sendCoinsBetweenPoolAndUser sUpd pool.token0 pool.token1
          |a0| |a1| pool.address owner = .ok sSent ∧
        w0 = -a0 ∧ w1 = -a1 ∧
        (req = position.liquidity →
          assocGet s₂.positions pid = none ∧
          assocGet s₂.feeAccum pid = none ∧
          assocGet s₂.incAccum pid = none ∧
          s₂.ticks = sSent.ticks ∧ s₂.pools = sSent.pools ∧
          s₂.balances = sSent.balances) ∧
        (req ≠ position.liquidity → s₂ = sSent) := by
  unfold withdrawPosition at h
  iterate 14 all_goals (first | split at h | (try simp only [] at h))
  all_goals try (injection h with h₁ h₂; exact Except.noConfusion h₁)
  case _ xA position hpos xB pool hpool xC uu hval xD avail havail xE rw₀ sInc
      hinc hreq heqFull xF a0 a1 sUpd hupd xG sSent hsend xH f₀ s₄ hfees xI i₀
      s₅ hinc2 xJ s₆ hdel =>
    rw [getPositionLiquidity_of_getPosition s pid position hpos] at havail
    injection havail with havail
    subst havail
    injection h with h₁ h₂
    injection h₁ with h₃
    injection h₃ with hw0 hw1
    subst h₂
    obtain ⟨hdelP, hdelF, hdelI, hdelPo, hdelT, hdelB, hdelC, hdelN⟩ :=
      deletePosition_ok _ _ _ _ _ hdel
    obtain ⟨en₂, _, _, hi2I, hi2C, hi2Po, hi2T, hi2P, hi2F, hi2B, hi2N⟩ :=
      collectIncentives_ok _ _ _ _ _ hinc2
    obtain ⟨en₃, _, _, hf2F, hf2C, hf2Po, hf2T, hf2P, hf2I, hf2B, hf2N⟩ :=
      collectFees_ok _ _ _ _ _ hfees
    refine ⟨position, pool, hpos, hpool, not_lt.mp hreq, rw₀, sInc, a0, a1,
      sUpd, sSent, hinc, hupd, hsend, hw0.symm, hw1.symm, ?_, ?_⟩
    · intro _
      refine ⟨?_, ?_, ?_, ?_, ?_, ?_⟩
      · rw [hdelP, assocGet_del_self]
      · rw [hdelF, assocGet_del_self]
      · rw [hdelI, assocGet_del_self]
      · rw [hdelT, hi2T, hf2T]
      · rw [hdelPo, hi2Po, hf2Po]
      · rw [hdelB, hi2B, hf2B]
    · intro hne
      exact absurd heqFull hne
  case _ xA position hpos xB pool hpool xC uu hval xD avail havail xE rw₀ sInc
      hinc hreq hneFull xF a0 a1 sUpd hupd xG sSent hsend =>
    rw [getPositionLiquidity_of_getPosition s pid position hpos] at havail
    injection havail with havail
    subst havail
    injection h with h₁ h₂
    injection h₁ with h₃
    injection h₃ with hw0 hw1
    subst h₂
    refine ⟨position, pool, hpos, hpool, not_lt.mp hreq, rw₀, sInc, a0, a1,
      sUpd, sSent, hinc, hupd, hsend, hw0.symm, hw1.symm, ?_, fun _ => rfl⟩
    intro heq
    exact absurd heq hneFull

theorem updateLiquidityIfActivePosition_fields (pool : Pool) (lo hi : ℤ)
    (δ : ℚ) :
    (pool.updateLiquidityIfActivePosition lo hi δ).currentSqrtPrice =
      pool.currentSqrtPrice ∧
    (pool.updateLiquidityIfActivePosition lo hi δ).currentTick =
      pool.currentTick ∧
    (pool.updateLiquidityIfActivePosition lo hi δ).tickSpacing =
      pool.tickSpacing ∧
    (pool.updateLiquidityIfActivePosition lo hi δ).exponentAtPriceOne =
      pool.exponentAtPriceOne ∧
    (pool.updateLiquidityIfActivePosition lo hi δ).token0 = pool.token0 ∧
    (pool.updateLiquidityIfActivePosition lo hi δ).token1 = pool.token1 ∧
    (pool.updateLiquidityIfActivePosition lo hi δ).address = pool.address := by
  unfold Pool.updateLiquidityIfActivePosition
  split <;> exact ⟨rfl, rfl, rfl, rfl, rfl, rfl, rfl⟩

theorem calcActualAmounts_congr (p q : Pool) (lo hi : ℤ) (sL sU δ : ℚ)
    (hT : q.currentTick = p.currentTick)
    (hS : q.currentSqrtPrice = p.currentSqrtPrice) :
    q.calcActualAmounts lo hi sL sU δ = p.calcActualAmounts lo hi sL sU δ := by
  simp only [Pool.calcActualAmounts, hT, hS]

theorem getPosition_error (s : State) (pid : Nat) (e : CLError)
    (h : getPosition s pid = .error e) : e = .positionNotFound pid := by
  unfold getPosition at h
  split at h
  · injection h with h₁
    exact h₁.symm
  · exact Except.noConfusion h

theorem getPositionLiquidity_error (s : State) (pid : Nat) (e : CLError)
    (h : getPositionLiquidity s pid = .error e) : e = .positionNotFound pid := by
  unfold getPositionLiquidity at h
  split at h
  · injection h with h₁
    exact h₁.symm
  · exact Except.noConfusion h

theorem getPoolById_error (s : State) (poolId : Nat) (e : CLError)
    (h : getPoolById s poolId = .error e) : e = .poolNotFound poolId := by
  unfold getPoolById at h
  split at h
  · injection h with h₁
    exact h₁.symm
  · exact Except.noConfusion h

theorem validateTickRangeIsValid_error (ts ex lo hi : ℤ) (e : CLError)
    (h : validateTickRangeIsValid ts ex lo hi = .error e) :
    e = .invalidTickRange lo hi := by
  unfold validateTickRangeIsValid at h
  split at h
  · injection h with h₁
    exact h₁.symm
  · split at h
    · injection h with h₁
      exact h₁.symm
    · split at h
      · injection h with h₁
        exact h₁.symm
      · exact Except.noConfusion h

theorem ticksToSqrtPrice_error (lo hi ex : ℤ) (e : CLError)
    (h : ticksToSqrtPrice lo hi ex = .error e) : e = .invalidTick lo hi := by
  unfold ticksToSqrtPrice at h
  split at h
  · injection h with h₁
    exact h₁.symm
  · split at h
    · injection h with h₁
      exact h₁.symm
    · exact Except.noConfusion h

theorem collectIncentives_error (s : State) (owner pid : Nat) (e : CLError)
    (h : collectIncentives s owner pid = .error e) :
    e = .positionNotFound pid := by
  unfold collectIncentives at h
  split at h
  · injection h with h₁
    exact h₁.symm
  · exact Except.noConfusion h

theorem collectFees_error (s : State) (owner pid : Nat) (e : CLError)
    (h : collectFees s owner pid = .error e) : e = .positionNotFound pid := by
  unfold collectFees at h
  split at h
  · injection h with h₁
    exact h₁.symm
  · exact Except.noConfusion h

theorem deletePosition_error (s : State) (pid owner poolId : Nat) (e : CLError)
    (h : deletePosition s pid owner poolId = .error e) :
    e = .positionNotFound pid := by
  unfold deletePosition at h
  split at h
  · injection h with h₁
    exact h₁.symm
  · exact Except.noConfusion h

theorem initOrUpdateTick_error (s : State) (poolId : Nat) (ct t : ℤ) (δ : ℚ)
    (up : Bool) (e : CLError)
    (h : initOrUpdateTick s poolId ct t δ up = .error e) :
    (∃ p, e = .poolNotFound p) ∨ (∃ t₁ sp, e = .tickNotAligned t₁ sp) := by
  unfold initOrUpdateTick at h
  split at h
  case _ e₁ he =>
    injection h with h₁
    exact Or.inl ⟨_, h₁.symm.trans (getPoolById_error _ _ _ he)⟩
  · split at h
    · injection h with h₁
      exact Or.inr ⟨_, _, h₁.symm⟩
    · exact Except.noConfusion h

theorem initOrUpdatePosition_error (s : State) (poolId owner : Nat)
    (lo hi : ℤ) (δ : ℚ) (jt pid : Nat) (e : CLError)
    (h : initOrUpdatePosition s poolId owner lo hi δ jt pid = .error e) :
    False := by
  unfold initOrUpdatePosition at h
  split at h <;> exact Except.noConfusion h

theorem bankSend_error (s : State) (snd rcv d : Nat) (amt : ℤ) (e : CLError)
    (h : bankSend s snd rcv d amt = .error e) : e = .insufficientFunds := by
  unfold bankSend at h
  split at h
  · exact Except.noConfusion h
  · split at h
    · injection h with h₁
      exact h₁.symm
    · exact Except.noConfusion h

theorem sendCoins_error (s : State) (d0 d1 : Nat) (a0 a1 : ℤ)
    (snd rcv : Nat) (e : CLError)
    (h : sendCoinsBetweenPoolAndUser s d0 d1 a0 a1 snd rcv = .error e) :
    (∃ a, e = .negativeAmount a) ∨ e = .insufficientFunds := by
  unfold sendCoinsBetweenPoolAndUser at h
  split at h
  · injection h with h₁
    exact Or.inl ⟨_, h₁.symm⟩
  · split at h
    · injection h with h₁
      exact Or.inl ⟨_, h₁.symm⟩
    · split at h
      case _ e₁ he =>
        injection h with h₁
        exact Or.inr (h₁.symm.trans (bankSend_error _ _ _ _ _ _ he))
      case _ s₁ hs =>
        exact Or.inr ((bankSend_error _ _ _ _ _ _ h).symm ▸ rfl)

theorem updatePosition_error (s : State) (poolId owner : Nat) (lo hi : ℤ)
    (δ : ℚ) (jt pid : Nat) (e : CLError) (s₁ : State)
    (h : updatePosition s poolId owner lo hi δ jt pid = (.error e, s₁)) :
    (∃ p, e = .poolNotFound p) ∨ (∃ t₁ sp, e = .tickNotAligned t₁ sp) ∨
      (∃ l u, e = .invalidTick l u) := by
  unfold updatePosition at h
  iterate 10 all_goals (first | split at h | (try simp only [] at h))
  all_goals try (injection h with h₁ h₂; exact Except.noConfusion h₁)
  case _ he =>
    injection h with h₁ h₂
    injection h₁ with h₃
    exact Or.inl ⟨_, h₃.symm.trans (getPoolById_error _ _ _ he)⟩
  case _ he =>
    injection h with h₁ h₂
    injection h₁ with h₃
    rcases initOrUpdateTick_error _ _ _ _ _ _ _ (h₃.symm ▸ he) with hp | ht
    · exact Or.inl hp
    · exact Or.inr (Or.inl ht)
  case _ he =>
    injection h with h₁ h₂
    injection h₁ with h₃
    rcases initOrUpdateTick_error _ _ _ _ _ _ _ (h₃.symm ▸ he) with hp | ht
    · exact Or.inl hp
    · exact Or.inr (Or.inl ht)
  case _ he =>
    exact (initOrUpdatePosition_error _ _ _ _ _ _ _ _ _ he).elim
  case _ he =>
    injection h with h₁ h₂
    injection h₁ with h₃
    exact Or.inr (Or.inr ⟨_, _, h₃.symm.trans (ticksToSqrtPrice_error _ _ _ _ he)⟩)

theorem sendCoins_ok_balances (s : State) (d0 d1 : Nat) (a0 a1 : ℤ)
    (snd rcv : Nat) (s₁ : State)
    (h : sendCoinsBetweenPoolAndUser s d0 d1 a0 a1 snd rcv = .ok s₁)
    (hne : snd ≠ rcv) (hd : d0 ≠ d1) :
    getBalance s₁ rcv d0 = getBalance s rcv d0 + a0 ∧
    getBalance s₁ snd d0 = getBalance s snd d0 - a0 ∧
    getBalance s₁ rcv d1 = getBalance s rcv d1 + a1 ∧
    getBalance s₁ snd d1 = getBalance s snd d1 - a1 := by
  unfold sendCoinsBetweenPoolAndUser at h
  split at h
  · exact Except.noConfusion h
  · split at h
    · exact Except.noConfusion h
    · split at h
      · exact Except.noConfusion h
      case _ sMid hmid =>
        obtain ⟨m₁, m₂, m₃⟩ := bankSend_ok_balances _ _ _ _ _ _ hmid hne
        obtain ⟨f₁, f₂, f₃⟩ := bankSend_ok_balances _ _ _ _ _ _ h hne
        refine ⟨?_, ?_, ?_, ?_⟩
        · rw [f₁, m₃ rcv d0 (by simp [hne.symm, hd]) (by simp [hd])]
        · rw [f₂, m₃ snd d0 (by simp [hd]) (by simp [hne, hd])]
        · rw [f₃ rcv d1 (by simp [hne.symm]) (by simp [hd.symm]), m₁]
        · rw [f₃ snd d1 (by simp [hd.symm]) (by simp [hne]), m₂]

theorem updatePosition_error_ne_insufficient (s : State) (poolId owner : Nat)
    (lo hi : ℤ) (δ : ℚ) (jt pid : Nat) (e : CLError) (s₁ : State)
    (h : updatePosition s poolId owner lo hi δ jt pid = (.error e, s₁))
    (a b : ℚ) : e ≠ .insufficientLiquidity a b := by
  intro hc
  subst hc
  rcases updatePosition_error _ _ _ _ _ _ _ _ _ _ h with
    ⟨p, hp⟩ | ⟨t₁, sp, ht⟩ | ⟨l, u, hl⟩ <;> simp_all

theorem sendCoins_error_ne_insufficient (s : State) (d0 d1 : Nat)
    (a0 a1 : ℤ) (snd rcv : Nat) (e : CLError)
    (h : sendCoinsBetweenPoolAndUser s d0 d1 a0 a1 snd rcv = .error e)
    (a b : ℚ) : e ≠ .insufficientLiquidity a b := by
  intro hc
  subst hc
  rcases sendCoins_error _ _ _ _ _ _ _ _ h with ⟨av, hav⟩ | hf <;> simp_all

theorem withdrawPosition_insufficient_error_inv
    (s : State) (owner pid : Nat) (req : ℚ) (a b : ℚ) (s₁ : State)
    (h : withdrawPosition s owner pid req =
      (.error (.insufficientLiquidity a b), s₁)) :
    ∃ position, getPosition s pid = .ok position ∧
      a = req ∧ b = position.liquidity ∧ position.liquidity < req ∧
      s₁.pools = s.pools ∧ s₁.ticks = s.ticks ∧
      s₁.positions = s.positions ∧ s₁.feeAccum = s.feeAccum ∧
      s₁.balances = s.balances ∧ s₁.nextPositionId = s.nextPositionId := by
  unfold withdrawPosition at h
  iterate 14 all_goals (first | split at h | (try simp only [] at h))
  all_goals try (injection h with h₁ h₂; exact Except.noConfusion h₁)
  -- a propagated error is never the insufficient-liquidity error
  all_goals try
    (rename_i he
     injection h with h₁ h₂
     injection h₁ with h₃
     subst h₃
     first
     | exact absurd (getPosition_error _ _ _ he) (by simp)
     | exact absurd (getPoolById_error _ _ _ he) (by simp)
     | exact absurd (validateTickRangeIsValid_error _ _ _ _ _ he) (by simp)
     | exact absurd (getPositionLiquidity_error _ _ _ he) (by simp)
     | exact absurd (collectIncentives_error _ _ _ _ he) (by simp)
     | exact absurd (collectFees_error _ _ _ _ he) (by simp)
     | exact absurd (deletePosition_error _ _ _ _ _ he) (by simp)
     | exact absurd rfl
         (updatePosition_error_ne_insufficient _ _ _ _ _ _ _ _ _ _ he a b)
     | exact absurd rfl
         (sendCoins_error_ne_insufficient _ _ _ _ _ _ _ _ he a b))
  rename_i xA position hpos xB pool hpool xC uu hval xD avail havail xE rw₀
    sInc hinc hlt
  rw [getPositionLiquidity_of_getPosition s pid position hpos] at havail
  injection havail with havail
  subst havail
  injection h with h₁ h₂
  injection h₁ with h₃
  injection h₃ with ha hb
  subst h₂
  obtain ⟨entry, hget, hrw, hiI, hiC, hiPo, hiT, hiP, hiF, hiB, hiN⟩ :=
    collectIncentives_ok _ _ _ _ _ hinc
  exact ⟨position, hpos, ha.symm, hb.symm, hlt, hiPo, hiT, hiP, hiF, hiB, hiN⟩

/-- C1.  If `createPosition` returns an error — the below-minimum check of
lp.go:82-87 included, and a failing custody transfer (lp.go:90) included —
then `writeCacheCtx` was never called: the pool store, the tick registry,
the position records, both accumulators, the bank balances and the
collected-rewards ledger are exactly as they were before the call (only
the position-id counter, incremented on the outer context, may differ);
the speculative scope is committed only on the success path, after the
custody transfer of the actual amounts has succeeded. -/
theorem createPosition_error_discards_speculative_scope
    (s : State) (poolId owner : Nat) (a0d a1d a0m a1m lo hi : ℤ)
    (bt : Nat) (e : CLError) (s₁ : State)
    (h : createPosition s poolId owner a0d a1d a0m a1m lo hi bt = (.error e, s₁)) :
    s₁.pools = s.pools ∧ s₁.ticks = s.ticks ∧ s₁.positions = s.positions ∧
      s₁.feeAccum = s.feeAccum ∧ s₁.incAccum = s.incAccum ∧
      s₁.balances = s.balances ∧ s₁.claimed = s.claimed := by
  unfold createPosition at h
  iterate 16 all_goals (first | split at h | (try simp only [] at h))
  all_goals
    first
    | (injection h with h₁ h₂; subst h₂;
       exact ⟨rfl, rfl, rfl, rfl, rfl, rfl, rfl⟩)
    | (injection h with h₁ h₂; exact absurd h₁ (by simp))

/-- Witness for C1: a concrete call whose actual `amount0` (`1`) falls
below the stated minimum (`100`) errors and leaves every store unchanged. -/
theorem createPosition_error_discards_speculative_scope_witness :
    (createPosition s0 1 5 6 6 100 0 (-1) 1 7).2.pools = s0.pools ∧
    (createPosition s0 1 5 6 6 100 0 (-1) 1 7).2.ticks = s0.ticks ∧
    (createPosition s0 1 5 6 6 100 0 (-1) 1 7).2.positions = s0.positions ∧
    (createPosition s0 1 5 6 6 100 0 (-1) 1 7).2.feeAccum = s0.feeAccum ∧
    (createPosition s0 1 5 6 6 100 0 (-1) 1 7).2.incAccum = s0.incAccum ∧
    (createPosition s0 1 5 6 6 100 0 (-1) 1 7).2.balances = s0.balances ∧
    (createPosition s0 1 5 6 6 100 0 (-1) 1 7).2.claimed = s0.claimed :=
  createPosition_error_discards_speculative_scope s0 1 5 6 6 100 0 (-1) 1 7
    (.insufficientLiquidityCreated 1 100 true)
    (createPosition s0 1 5 6 6 100 0 (-1) 1 7).2
    (by norm_num [createPosition, getPoolById, assocGet, s0, basePool,
      validateTickRangeIsValid, maxTick, ticksToSqrtPrice, sqrtPriceAtTick,
      sqrtBase, initialPoolStep, isInitialPositionForPool, getLiquidityFromAmounts,
      liquidity0, liquidity1, initializeFeeAccumulatorPosition, assocSet,
      updatePosition, initOrUpdateTick, initOrUpdatePosition,
      Pool.calcActualAmounts, calcAmount0Delta, calcAmount1Delta,
      Pool.updateLiquidityIfActivePosition, setPool,
      updateFeeAccumulatorPosition, sendCoinsBetweenPoolAndUser, bankSend,
      getBalance, addBalance, truncateInt, Int.tdiv_one, Rat.neg_num,
      Rat.neg_den, Int.neg_tdiv, Prod.mk.injEq, -Prod.mk_one_one,
      -Prod.mk_zero_zero])


/-- C3 (amended).  When `withdrawPosition` fails with
`InsufficientLiquidityError` (requested strictly greater than available,
lp.go:139-141), the pool store, tick registry, position records, fee
accumulator, balances and id counter are unchanged — but the incentive
collection of lp.go:132 has already run before the check, so the incentive
accumulator state (and the collected-rewards ledger) may have been
mutated; the claim's "all validation happens before any mutation" does not
hold for it. -/
theorem withdrawPosition_insufficient_liquidity_preserves_core_state
    (s : State) (owner pid : Nat) (req a b : ℚ) (s₁ : State)
    (h : withdrawPosition s owner pid req =
      (.error (.insufficientLiquidity a b), s₁)) :
    s₁.pools = s.pools ∧ s₁.ticks = s.ticks ∧ s₁.positions = s.positions ∧
      s₁.feeAccum = s.feeAccum ∧ s₁.balances = s.balances ∧
      s₁.nextPositionId = s.nextPositionId := by
  obtain ⟨position, hpos, ha, hb, hlt, h₁, h₂, h₃, h₄, h₅, h₆⟩ :=
    withdrawPosition_insufficient_error_inv _ _ _ _ _ _ _ h
  exact ⟨h₁, h₂, h₃, h₄, h₅, h₆⟩

/-- Witness for C3 (amended): a concrete over-withdrawal request errors and
leaves the core stores unchanged. -/
theorem withdrawPosition_insufficient_liquidity_preserves_core_state_witness :
    (withdrawPosition s2 5 1 10).2.pools = s2.pools ∧
    (withdrawPosition s2 5 1 10).2.ticks = s2.ticks ∧
    (withdrawPosition s2 5 1 10).2.positions = s2.positions ∧
    (withdrawPosition s2 5 1 10).2.feeAccum = s2.feeAccum ∧
    (withdrawPosition s2 5 1 10).2.balances = s2.balances ∧
    (withdrawPosition s2 5 1 10).2.nextPositionId = s2.nextPositionId :=
  withdrawPosition_insufficient_liquidity_preserves_core_state s2 5 1 10 10 6
    (withdrawPosition s2 5 1 10).2
    (by norm_num [withdrawPosition, getPosition, getPositionLiquidity,
      collectIncentives, getPoolById, assocGet, s2, basePool,
      validateTickRangeIsValid, maxTick, assocSet, Prod.mk.injEq,
      -Prod.mk_one_one, -Prod.mk_zero_zero])

/-- Counterexample for C3 as stated: on a position with `3` unclaimed
incentive rewards, a request of `10 > 6` returns
`InsufficientLiquidityError`, yet the state after the call differs from
the state before it — the incentive accumulator entry was settled (its
unclaimed rewards zeroed) by the incentive collection that runs before
the liquidity-availability check. -/
theorem withdrawPosition_insufficient_liquidity_mutates_incentive_state :
    (withdrawPosition s2 5 1 10).1 = .error (.insufficientLiquidity 10 6) ∧
    (withdrawPosition s2 5 1 10).2.incAccum ≠ s2.incAccum ∧
    (withdrawPosition s2 5 1 10).2 ≠ s2 := by
  refine ⟨?_, ?_, ?_⟩ <;>
    norm_num [withdrawPosition, getPosition, getPositionLiquidity,
      collectIncentives, getPoolById, assocGet, s2, basePool,
      validateTickRangeIsValid, maxTick, assocSet, Prod.mk.injEq,
      -Prod.mk_one_one, -Prod.mk_zero_zero, State.mk.injEq,
      AccumEntry.mk.injEq]

/-- C7.  The integer amounts a successful `updatePosition` returns are
exactly the decimal amounts produced by `CalcActualAmounts` truncated
toward zero, truncation being applied only at this final step
(lp.go:238-239; `CalcActualAmounts` itself returns exact decimals). -/
theorem updatePosition_truncates_calcActualAmounts
    (s : State) (poolId owner : Nat) (lo hi : ℤ) (δ : ℚ) (jt pid : Nat)
    (a0 a1 : ℤ) (s₁ : State)
    (h : updatePosition s poolId owner lo hi δ jt pid = (.ok (a0, a1), s₁)) :
    ∃ pool sqrtL sqrtU, getPoolById s poolId = .ok pool ∧
      ticksToSqrtPrice lo hi pool.exponentAtPriceOne = .ok (sqrtL, sqrtU) ∧
      a0 = truncateInt (pool.calcActualAmounts lo hi sqrtL sqrtU δ).1 ∧
      a1 = truncateInt (pool.calcActualAmounts lo hi sqrtL sqrtU δ).2 := by
  obtain ⟨pool, hpool, hlh, hsqrt, ha0, ha1, hrest⟩ :=
    updatePosition_ok_spec _ _ _ _ _ _ _ _ _ _ _ h
  exact ⟨pool, _, _, hpool, hsqrt, ha0, ha1⟩

/-- Witness for C7: a concrete `updatePosition` adding liquidity `6` over
`[-1, 1]` returns `(1, 6)`, the truncations of the exact decimal amounts. -/
theorem updatePosition_truncates_calcActualAmounts_witness :
    ∃ pool sqrtL sqrtU, getPoolById s2 1 = .ok pool ∧
      ticksToSqrtPrice (-1) 1 pool.exponentAtPriceOne = .ok (sqrtL, sqrtU) ∧
      (1 : ℤ) = truncateInt (pool.calcActualAmounts (-1) 1 sqrtL sqrtU 6).1 ∧
      (6 : ℤ) = truncateInt (pool.calcActualAmounts (-1) 1 sqrtL sqrtU 6).2 :=
  updatePosition_truncates_calcActualAmounts s2 1 5 (-1) 1 6 7 1 1 6
    (updatePosition s2 1 5 (-1) 1 6 7 1).2
    (by norm_num [updatePosition, getPoolById, assocGet, s2, basePool,
      ticksToSqrtPrice, sqrtPriceAtTick, sqrtBase, maxTick,
      initOrUpdateTick, initOrUpdatePosition, Pool.calcActualAmounts,
      calcAmount0Delta, calcAmount1Delta,
      Pool.updateLiquidityIfActivePosition, setPool,
      updateFeeAccumulatorPosition, assocSet, truncateInt, Int.tdiv_one,
      Rat.neg_num, Rat.neg_den, Int.neg_tdiv, Prod.mk.injEq,
      -Prod.mk_one_one, -Prod.mk_zero_zero])

/-- C6.  A successful `withdrawPosition` of exactly the position's full
liquidity deletes the position record and both of its accumulator entries
(lp.go:159-174), leaving no residual claims; a successful withdrawal of
any other (in particular any strictly smaller) amount keeps the position
record. -/
theorem withdrawPosition_full_exit_deletes_position
    (s : State) (owner pid : Nat) (req : ℚ) (w0 w1 : ℤ) (s₂ : State)
    (position : Position)
    (hpos : getPosition s pid = .ok position)
    (h : withdrawPosition s owner pid req = (.ok (w0, w1), s₂)) :
    (req = position.liquidity →
      assocGet s₂.positions pid = none ∧ assocGet s₂.feeAccum pid = none ∧
      assocGet s₂.incAccum pid = none) ∧
    (req ≠ position.liquidity →
      ∃ p₁, assocGet s₂.positions pid = some p₁) := by
  obtain ⟨position₁, pool, hpos₁, hpool, hle, rw₀, sInc, a0, a1, sUpd, sSent,
    hinc, hupd, hsend, hw0, hw1, hfull, hpart⟩ :=
    withdrawPosition_ok_spec _ _ _ _ _ _ _ h
  rw [hpos] at hpos₁
  injection hpos₁ with hpos₁
  subst hpos₁
  constructor
  · intro heq
    obtain ⟨hA, hB, hC, hrest⟩ := hfull heq
    exact ⟨hA, hB, hC⟩
  · intro hne
    have hs₂ := hpart hne
    subst hs₂
    obtain ⟨sendA, sendB, sPools, sTicks, sPos, sFee, sInc₂, sCl, sNid⟩ :=
      sendCoins_ok_fields _ _ _ _ _ _ _ _ hsend
    obtain ⟨poolW, hpoolW, hlhW, hsqrtW, hA0, hA1, uPools, uTicks, uPos, uInc,
      uFee, uBal, uCl, uNid⟩ := updatePosition_ok_spec _ _ _ _ _ _ _ _ _ _ _ hupd
    rw [sPos, uPos, assocGet_set_self]
    exact ⟨_, rfl⟩

/-- Witness for C6: the concrete full exit of position `1` (liquidity `6`)
removes its record and both accumulator entries. -/
theorem withdrawPosition_full_exit_deletes_position_witness :
    ((6 : ℚ) = (6 : ℚ) →
      assocGet (withdrawPosition s2 5 1 6).2.positions 1 = none ∧
      assocGet (withdrawPosition s2 5 1 6).2.feeAccum 1 = none ∧
      assocGet (withdrawPosition s2 5 1 6).2.incAccum 1 = none) ∧
    ((6 : ℚ) ≠ (6 : ℚ) →
      ∃ p₁, assocGet (withdrawPosition s2 5 1 6).2.positions 1 = some p₁) :=
  withdrawPosition_full_exit_deletes_position s2 5 1 6 1 6
    (withdrawPosition s2 5 1 6).2 ⟨1, 5, -1, 1, 7, 6⟩
    (by norm_num [getPosition, assocGet, s2])
    (by norm_num [withdrawPosition, getPosition, getPositionLiquidity,
      collectIncentives, collectFees, deletePosition, assocDel, getPoolById,
      assocGet, s2, basePool, validateTickRangeIsValid, maxTick,
      ticksToSqrtPrice, sqrtPriceAtTick, sqrtBase, updatePosition,
      initOrUpdateTick, initOrUpdatePosition, Pool.calcActualAmounts,
      calcAmount0Delta, calcAmount1Delta,
      Pool.updateLiquidityIfActivePosition, setPool,
      updateFeeAccumulatorPosition, sendCoinsBetweenPoolAndUser, bankSend,
      getBalance, addBalance, truncateInt, Int.tdiv_one, Rat.neg_num,
      Rat.neg_den, Int.neg_tdiv, Prod.mk.injEq, -Prod.mk_one_one,
      -Prod.mk_zero_zero])



theorem tickLiquidity_of_assocGet (s : State) (poolId : Nat) (t : ℤ) (g n : ℚ)
    (h : assocGet s.ticks (poolId, t) = some ⟨g, n⟩) :
    tickLiquidity s poolId t = (g, n) := by
  simp only [tickLiquidity, h, Option.getD_some]

/-- Joint inversion of a successful `createPosition` followed immediately by
a `withdrawPosition` of the entire created liquidity: the withdrawal
returns exactly the truncated amounts deposited at creation, and both
boundary ticks return to their pre-creation liquidity values. -/
theorem create_full_withdraw_inv
    (s : State) (poolId owner : Nat) (a0d a1d a0m a1m lo hi : ℤ) (bt : Nat)
    (r : CreateResult) (s₁ s₂ : State) (w0 w1 : ℤ)
    (hfresh : assocGet s.positions s.nextPositionId = none)
    (hc : createPosition s poolId owner a0d a1d a0m a1m lo hi bt = (.ok r, s₁))
    (hw : withdrawPosition s₁ owner r.positionId r.liquidityCreated
      = (.ok (w0, w1), s₂)) :
    w0 = r.amount0 ∧ w1 = r.amount1 ∧
    tickLiquidity s₂ poolId lo = tickLiquidity s poolId lo ∧
    tickLiquidity s₂ poolId hi = tickLiquidity s poolId hi := by
  obtain ⟨pool, pool₁, hpool, hval, hlh, hEx, hTs, hT0, hT1, hAd, hNoIni, hIni,
    hpid, hjt, hliqdef, hδ, hA0, hA1, hm0, hm1, hPoolLk, hPosLk, hPosOther,
    hFeeLk, hIncLk, hTLo, hTHi, hTOther, hCl, hNid⟩ :=
    createPosition_ok_spec _ _ _ _ _ _ _ _ _ _ _ _ hfresh hc
  obtain ⟨position, poolW, hpos, hpoolW, hle, rw₀, sInc, a0, a1, sUpd, sSent,
    hinc, hupd, hsend, hw0, hw1, hfull, hpart⟩ :=
    withdrawPosition_ok_spec _ _ _ _ _ _ _ hw
  rw [getPosition_ok_iff, hPosLk] at hpos
  injection hpos with hpos
  subst hpos
  dsimp only at hupd
  obtain ⟨entry, hget, hrw, iInc, iCl, iPools, iTicks, iPos, iFee, iBal,
    iNid⟩ := collectIncentives_ok _ _ _ _ _ hinc
  obtain ⟨poolU, hpoolU, hlhU, hsqrtU, ha0, ha1, uPools, uTicks, uPos, uInc,
    uFee, uBal, uCl, uNid⟩ := updatePosition_ok_spec _ _ _ _ _ _ _ _ _ _ _ hupd
  rw [getPoolById_ok_iff, iPools, hPoolLk] at hpoolU
  injection hpoolU with hpoolU
  subst hpoolU
  have hfld := updateLiquidityIfActivePosition_fields pool₁ lo hi
    r.liquidityCreated
  rw [hfld.2.2.2.1, hEx,
    calcActualAmounts_congr pool₁
      (pool₁.updateLiquidityIfActivePosition lo hi r.liquidityCreated)
      lo hi _ _ _ hfld.2.1 hfld.1,
    calcActualAmounts_neg] at ha0 ha1
  dsimp only at ha0 ha1
  rw [truncateInt_neg, ← hA0] at ha0
  rw [truncateInt_neg, ← hA1] at ha1
  obtain ⟨hP, hF, hI, hTk, hPo, hB⟩ := hfull rfl
  obtain ⟨hs0a, hs1a, sPools, sTicks, sPos, sFee, sIncA, sCl, sNid⟩ :=
    sendCoins_ok_fields _ _ _ _ _ _ _ _ hsend
  have hneqLH : ((poolId, lo) : Nat × ℤ) ≠ (poolId, hi) := by
    simp only [ne_eq, Prod.mk.injEq, not_and]
    intro _
    omega
  have htlIncLo := tickLiquidity_congr s₁ sInc iTicks poolId lo
  have htlIncHi := tickLiquidity_congr s₁ sInc iTicks poolId hi
  refine ⟨by omega, by omega, ?_, ?_⟩
  · have hgetLo : assocGet s₂.ticks (poolId, lo) =
        some ⟨(tickLiquidity sInc poolId lo).1 + -(r.liquidityCreated),
              (tickLiquidity sInc poolId lo).2 + -(r.liquidityCreated)⟩ := by
      rw [hTk, sTicks, uTicks, assocGet_set_ne _ _ _ _ hneqLH,
        assocGet_set_self]
    have h₁ := tickLiquidity_of_assocGet s₂ poolId lo _ _ hgetLo
    rw [h₁, htlIncLo, hTLo]
    refine Prod.ext_iff.mpr ⟨?_, ?_⟩ <;> dsimp only <;> ring
  · have hgetHi : assocGet s₂.ticks (poolId, hi) =
        some ⟨(tickLiquidity sInc poolId hi).1 + -(r.liquidityCreated),
              (tickLiquidity sInc poolId hi).2 - -(r.liquidityCreated)⟩ := by
      rw [hTk, sTicks, uTicks, assocGet_set_self]
    have h₂ := tickLiquidity_of_assocGet s₂ poolId hi _ _ hgetHi
    rw [h₂, htlIncHi, hTHi]
    refine Prod.ext_iff.mpr ⟨?_, ?_⟩ <;> dsimp only <;> ring

/-- Concrete evaluation: creating a position over ticks `[-1, 1]` with
desired amounts `6`/`6` on the base scenario yields position `1` with
liquidity `6` and actual amounts `(1, 6)`, producing state `s1`. -/
theorem createPosition_s0_eval :
    createPosition s0 1 5 6 6 0 0 (-1) 1 7 = (.ok ⟨1, 1, 6, 6, 7⟩, s1) := by
  norm_num [createPosition, getPoolById, assocGet, s0, s1, basePool,
    validateTickRangeIsValid, maxTick, ticksToSqrtPrice, sqrtPriceAtTick,
    sqrtBase, initialPoolStep, isInitialPositionForPool,
    getLiquidityFromAmounts, liquidity0, liquidity1,
    initializeFeeAccumulatorPosition, assocSet, updatePosition,
    initOrUpdateTick, initOrUpdatePosition, Pool.calcActualAmounts,
    calcAmount0Delta, calcAmount1Delta, Pool.updateLiquidityIfActivePosition,
    setPool, updateFeeAccumulatorPosition, sendCoinsBetweenPoolAndUser,
    bankSend, getBalance, addBalance, truncateInt, Int.tdiv_one, Rat.neg_num,
    Rat.neg_den, Int.neg_tdiv, Prod.mk.injEq, -Prod.mk_one_one,
    -Prod.mk_zero_zero]

/-- Concrete evaluation: fully withdrawing position `1` from `s1` succeeds
and returns the amounts `(1, 6)` deposited at creation. -/
theorem withdrawPosition_s1_eval :
    withdrawPosition s1 5 1 6 = (.ok (1, 6), (withdrawPosition s1 5 1 6).2) := by
  norm_num [withdrawPosition, getPosition, getPositionLiquidity,
    collectIncentives, collectFees, deletePosition, assocDel, getPoolById,
    assocGet, s1, basePool, validateTickRangeIsValid, maxTick,
    ticksToSqrtPrice, sqrtPriceAtTick, sqrtBase, updatePosition,
    initOrUpdateTick, initOrUpdatePosition, Pool.calcActualAmounts,
    calcAmount0Delta, calcAmount1Delta, Pool.updateLiquidityIfActivePosition,
    setPool, updateFeeAccumulatorPosition, sendCoinsBetweenPoolAndUser,
    bankSend, getBalance, addBalance, truncateInt, Int.tdiv_one, Rat.neg_num,
    Rat.neg_den, Int.neg_tdiv, Prod.mk.injEq, -Prod.mk_one_one,
    -Prod.mk_zero_zero]

/-- C2.  A successful `createPosition` immediately followed by a
`withdrawPosition` of the entire created liquidity returns withdrawal
amounts no larger than the actual amounts deposited at creation; the
rounding dust retained by the pool is never negative.  (In this exact
model the returned amounts coincide with the deposited ones.) -/
theorem createPosition_withdrawPosition_roundtrip
    (s : State) (poolId owner : Nat) (a0d a1d a0m a1m lo hi : ℤ) (bt : Nat)
    (r : CreateResult) (s₁ s₂ : State) (w0 w1 : ℤ)
    (hfresh : assocGet s.positions s.nextPositionId = none)
    (hc : createPosition s poolId owner a0d a1d a0m a1m lo hi bt = (.ok r, s₁))
    (hw : withdrawPosition s₁ owner r.positionId r.liquidityCreated
      = (.ok (w0, w1), s₂)) :
    w0 ≤ r.amount0 ∧ w1 ≤ r.amount1 ∧
    0 ≤ r.amount0 - w0 ∧ 0 ≤ r.amount1 - w1 := by
  obtain ⟨h0, h1, _, _⟩ :=
    create_full_withdraw_inv s poolId owner a0d a1d a0m a1m lo hi bt r s₁ s₂
      w0 w1 hfresh hc hw
  omega

/-- Witness for C2: the concrete round trip deposits `(1, 6)` and the full
withdrawal returns `(1, 6)`, so both differences are zero. -/
theorem createPosition_withdrawPosition_roundtrip_witness :
    (1 : ℤ) ≤ (⟨1, 1, 6, 6, 7⟩ : CreateResult).amount0 ∧
    (6 : ℤ) ≤ (⟨1, 1, 6, 6, 7⟩ : CreateResult).amount1 ∧
    (0 : ℤ) ≤ (⟨1, 1, 6, 6, 7⟩ : CreateResult).amount0 - 1 ∧
    (0 : ℤ) ≤ (⟨1, 1, 6, 6, 7⟩ : CreateResult).amount1 - 6 :=
  createPosition_withdrawPosition_roundtrip s0 1 5 6 6 0 0 (-1) 1 7
    ⟨1, 1, 6, 6, 7⟩ s1 (withdrawPosition s1 5 1 6).2 1 6
    rfl createPosition_s0_eval withdrawPosition_s1_eval

/-- C5.  Creating a position over `[lo, hi]` and then withdrawing its full
liquidity restores `liquidityGross` and `liquidityNet` at both boundary
ticks to their pre-creation values: the creation applies the liquidity
delta and the full withdrawal applies its negation to the same two tick
boundaries. -/
theorem tick_liquidity_restored_after_full_withdraw
    (s : State) (poolId owner : Nat) (a0d a1d a0m a1m lo hi : ℤ) (bt : Nat)
    (r : CreateResult) (s₁ s₂ : State) (w0 w1 : ℤ)
    (hfresh : assocGet s.positions s.nextPositionId = none)
    (hc : createPosition s poolId owner a0d a1d a0m a1m lo hi bt = (.ok r, s₁))
    (hw : withdrawPosition s₁ owner r.positionId r.liquidityCreated
      = (.ok (w0, w1), s₂)) :
    tickLiquidity s₂ poolId lo = tickLiquidity s poolId lo ∧
    tickLiquidity s₂ poolId hi = tickLiquidity s poolId hi := by
  obtain ⟨_, _, h₂, h₃⟩ :=
    create_full_withdraw_inv s poolId owner a0d a1d a0m a1m lo hi bt r s₁ s₂
      w0 w1 hfresh hc hw
  exact ⟨h₂, h₃⟩

/-- Witness for C5: the concrete round trip on the base scenario restores
both boundary ticks of the pool to their pre-creation values. -/
theorem tick_liquidity_restored_after_full_withdraw_witness :
    tickLiquidity (withdrawPosition s1 5 1 6).2 1 (-1) =
      tickLiquidity s0 1 (-1) ∧
    tickLiquidity (withdrawPosition s1 5 1 6).2 1 1 = tickLiquidity s0 1 1 :=
  tick_liquidity_restored_after_full_withdraw s0 1 5 6 6 0 0 (-1) 1 7
    ⟨1, 1, 6, 6, 7⟩ s1 (withdrawPosition s1 5 1 6).2 1 6
    rfl createPosition_s0_eval withdrawPosition_s1_eval



/-- C4.  On an uninitialized pool (zero sentinel price and tick), a
`createPosition` whose desired amounts are not both strictly positive and
whose tick range passes validation fails with the zero-initial-liquidity
error; and every successful call has both desired amounts strictly
positive, stores `approxSqrt (amount1Desired / amount0Desired)` as the
pool's square-root price and `priceToTick` of that spot price as the
pool's tick, and computes the liquidity delta against that freshly stored
square-root price. -/
theorem createPosition_initial_pool_bootstrap
    (s : State) (poolId owner : Nat) (a0d a1d a0m a1m lo hi : ℤ) (bt : Nat)
    (pool : Pool)
    (hfresh : assocGet s.positions s.nextPositionId = none)
    (hpool : getPoolById s poolId = .ok pool)
    (hini : isInitialPositionForPool pool.currentSqrtPrice pool.currentTick
      = true) :
    (¬(0 < a0d ∧ 0 < a1d) →
      validateTickRangeIsValid pool.tickSpacing pool.exponentAtPriceOne lo hi
        = .ok () →
      ticksToSqrtPrice lo hi pool.exponentAtPriceOne =
        .ok (sqrtPriceAtTick pool.exponentAtPriceOne lo,
             sqrtPriceAtTick pool.exponentAtPriceOne hi) →
      createPosition s poolId owner a0d a1d a0m a1m lo hi bt =
        (.error (.initialLiquidityZero a0d a1d),
         { s with nextPositionId := s.nextPositionId + 1 })) ∧
    (∀ r s₁,
      createPosition s poolId owner a0d a1d a0m a1m lo hi bt = (.ok r, s₁) →
      0 < a0d ∧ 0 < a1d ∧
      ∃ t₀ pool₂,
        priceToTick ((a1d : ℚ) / (a0d : ℚ)) pool.exponentAtPriceOne
          = .ok t₀ ∧
        r.liquidityCreated = getLiquidityFromAmounts
          (approxSqrt ((a1d : ℚ) / (a0d : ℚ)))
          (sqrtPriceAtTick pool.exponentAtPriceOne lo)
          (sqrtPriceAtTick pool.exponentAtPriceOne hi) a0d a1d ∧
        assocGet s₁.pools poolId = some pool₂ ∧
        pool₂.currentSqrtPrice = approxSqrt ((a1d : ℚ) / (a0d : ℚ)) ∧
        pool₂.currentTick = t₀) := by
  constructor
  · intro hneg hval hsqrt
    have hcond : ¬(0 < a0d) ∨ ¬(0 < a1d) := by tauto
    unfold createPosition
    simp only [hpool, hval, hsqrt]
    unfold initialPoolStep
    simp only [hini, eq_self_iff_true, if_true]
    unfold initializeInitialPositionForPool
    rw [if_pos hcond]
  · intro r s₁ h
    obtain ⟨pool', pool₁, hpool', hval, hlh, hEx, hTs, hT0, hT1, hAd, hNoIni,
      hIni, hpid, hjt, hliqdef, hδ, hA0, hA1, hm0, hm1, hPoolLk, hPosLk,
      hPosOther, hFeeLk, hIncLk, hTLo, hTHi, hTOther, hCl, hNid⟩ :=
      createPosition_ok_spec _ _ _ _ _ _ _ _ _ _ _ _ hfresh h
    rw [hpool] at hpool'
    injection hpool' with hpool'
    subst hpool'
    obtain ⟨h0, h1, t₀, hpt, hcp, hct⟩ := hIni hini
    have hfld := updateLiquidityIfActivePosition_fields pool₁ lo hi
      r.liquidityCreated
    refine ⟨h0, h1, t₀,
      pool₁.updateLiquidityIfActivePosition lo hi r.liquidityCreated,
      hpt, ?_, hPoolLk, ?_, ?_⟩
    · rw [hliqdef, hcp]
    · rw [hfld.1, hcp]
    · rw [hfld.2.1, hct]

/-- Witness for C4: creating on the uninitialized pool of `s4` with a zero
desired `amount0` fails with the zero-initial-liquidity error and only the
outer id increment survives. -/
theorem createPosition_initial_pool_bootstrap_witness :
    createPosition s4 1 5 0 6 0 0 (-1) 1 7 =
      (.error (.initialLiquidityZero 0 6),
       { s4 with nextPositionId := s4.nextPositionId + 1 }) :=
  (createPosition_initial_pool_bootstrap s4 1 5 0 6 0 0 (-1) 1 7 pool4
    rfl rfl (by decide)).1 (by norm_num) rfl rfl



theorem getBalance_congr (s s₁ : State) (h : s₁.balances = s.balances)
    (a d : Nat) : getBalance s₁ a d = getBalance s a d := by
  simp only [getBalance, h]

/-- C8 (amended).  On a successful `withdrawPosition` whose pool's current
square-root price lies in the band of its current tick, the internal
actual amounts are nonpositive, their absolute values move from the pool
address to the owner, and the returned amounts are the actual amounts
negated — so both returned amounts are NONNEGATIVE.  (The claim's "both
returned amounts are positive" is too strong: a pool whose current tick
sits outside the position's range yields a zero amount on one side.) -/
theorem withdrawPosition_success_returns_nonneg_negated_amounts
    (s : State) (owner pid : Nat) (req : ℚ) (w0 w1 : ℤ) (s₂ : State)
    (pool : Pool) (position : Position)
    (hpos : getPosition s pid = .ok position)
    (hpoolH : getPoolById s position.poolId = .ok pool)
    (hreq : 0 ≤ req)
    (hband : sqrtPriceAtTick pool.exponentAtPriceOne pool.currentTick ≤
        pool.currentSqrtPrice ∧
      pool.currentSqrtPrice ≤
        sqrtPriceAtTick pool.exponentAtPriceOne (pool.currentTick + 1))
    (hown : owner ≠ pool.address)
    (hd : pool.token0 ≠ pool.token1)
    (h : withdrawPosition s owner pid req = (.ok (w0, w1), s₂)) :
    0 ≤ w0 ∧ 0 ≤ w1 ∧
    (∃ rw₀ sInc a0 a1 sUpd,
      collectIncentives s owner pid = .ok (rw₀, sInc) ∧
      updatePosition sInc position.poolId owner position.lowerTick
        position.upperTick (-req) position.joinTime pid =
        (.ok (a0, a1), sUpd) ∧
      a0 ≤ 0 ∧ a1 ≤ 0 ∧ w0 = -a0 ∧ w1 = -a1) ∧
    getBalance s₂ owner pool.token0 = getBalance s owner pool.token0 + w0 ∧
    getBalance s₂ pool.address pool.token0 =
      getBalance s pool.address pool.token0 - w0 ∧
    getBalance s₂ owner pool.token1 = getBalance s owner pool.token1 + w1 ∧
    getBalance s₂ pool.address pool.token1 =
      getBalance s pool.address pool.token1 - w1 := by
  obtain ⟨position', pool', hpos', hpool', hle, rw₀, sInc, a0, a1, sUpd, sSent,
    hinc, hupd, hsend, hw0, hw1, hfull, hpart⟩ :=
    withdrawPosition_ok_spec _ _ _ _ _ _ _ h
  rw [hpos] at hpos'
  injection hpos' with he
  subst he
  obtain ⟨entry, hget, hrw, iInc, iCl, iPools, iTicks, iPos, iFee, iBal,
    iNid⟩ := collectIncentives_ok _ _ _ _ _ hinc
  rw [hpoolH] at hpool'
  injection hpool' with he
  subst he
  obtain ⟨poolU, hpoolU, hlhU, hsqrtU, ha0, ha1, uPools, uTicks, uPos, uInc,
    uFee, uBal, uCl, uNid⟩ := updatePosition_ok_spec _ _ _ _ _ _ _ _ _ _ _ hupd
  rw [getPoolById_ok_iff, iPools] at hpoolU
  rw [getPoolById_ok_iff] at hpoolH
  rw [hpoolH] at hpoolU
  injection hpoolU with he
  subst he
  have hcalc := calcActualAmounts_nonpos pool position.lowerTick
    position.upperTick _ _ (-req) (by linarith)
    (sqrtPriceAtTick_pos _ _)
    (sqrtPriceAtTick_mono _ (le_of_lt hlhU))
    (fun hlo hhi =>
      ⟨le_trans (sqrtPriceAtTick_mono _ hlo) hband.1,
       le_trans hband.2 (sqrtPriceAtTick_mono _ (by omega))⟩)
  have ha0le : a0 ≤ 0 := by
    rw [ha0]
    exact truncateInt_nonpos hcalc.1
  have ha1le : a1 ≤ 0 := by
    rw [ha1]
    exact truncateInt_nonpos hcalc.2
  have hbal : s₂.balances = sSent.balances := by
    by_cases hfq : req = position.liquidity
    · exact (hfull hfq).2.2.2.2.2
    · rw [hpart hfq]
  obtain ⟨c₁, c₂, c₃, c₄⟩ :=
    sendCoins_ok_balances _ _ _ _ _ _ _ _ hsend (Ne.symm hown) hd
  have habs0 : |a0| = w0 := by rw [abs_of_nonpos ha0le, hw0]
  have habs1 : |a1| = w1 := by rw [abs_of_nonpos ha1le, hw1]
  refine ⟨by omega, by omega,
    ⟨rw₀, sInc, a0, a1, sUpd, hinc, hupd, ha0le, ha1le, hw0, hw1⟩,
    ?_, ?_, ?_, ?_⟩
  · rw [getBalance_congr sSent s₂ hbal, c₁,
      getBalance_congr sInc sUpd uBal, getBalance_congr s sInc iBal, habs0]
  · rw [getBalance_congr sSent s₂ hbal, c₂,
      getBalance_congr sInc sUpd uBal, getBalance_congr s sInc iBal, habs0]
  · rw [getBalance_congr sSent s₂ hbal, c₃,
      getBalance_congr sInc sUpd uBal, getBalance_congr s sInc iBal, habs1]
  · rw [getBalance_congr sSent s₂ hbal, c₄,
      getBalance_congr sInc sUpd uBal, getBalance_congr s sInc iBal, habs1]

/-- Witness for C8 (amended): the concrete full withdrawal moves `(1, 6)`
from the pool address to the owner and returns exactly those amounts. -/
theorem withdrawPosition_success_returns_nonneg_negated_amounts_witness :
    (0 : ℤ) ≤ 1 ∧ (0 : ℤ) ≤ 6 ∧
    (∃ rw₀ sInc a0 a1 sUpd,
      collectIncentives s2 5 1 = .ok (rw₀, sInc) ∧
      updatePosition sInc 1 5 (-1) 1 (-6) 7 1 = (.ok (a0, a1), sUpd) ∧
      a0 ≤ 0 ∧ a1 ≤ 0 ∧ (1 : ℤ) = -a0 ∧ (6 : ℤ) = -a1) ∧
    getBalance (withdrawPosition s2 5 1 6).2 5 10 = getBalance s2 5 10 + 1 ∧
    getBalance (withdrawPosition s2 5 1 6).2 0 10 = getBalance s2 0 10 - 1 ∧
    getBalance (withdrawPosition s2 5 1 6).2 5 11 = getBalance s2 5 11 + 6 ∧
    getBalance (withdrawPosition s2 5 1 6).2 0 11 = getBalance s2 0 11 - 6 :=
  withdrawPosition_success_returns_nonneg_negated_amounts s2 5 1 6 1 6
    (withdrawPosition s2 5 1 6).2 { basePool with liquidity := 6 }
    ⟨1, 5, -1, 1, 7, 6⟩ rfl rfl (by norm_num)
    (by norm_num [sqrtPriceAtTick, sqrtBase, basePool, zpow_zero, zpow_one])
    (by decide) (by decide)
    (by norm_num [withdrawPosition, getPosition, getPositionLiquidity,
      collectIncentives, collectFees, deletePosition, assocDel, getPoolById,
      assocGet, s2, basePool, validateTickRangeIsValid, maxTick,
      ticksToSqrtPrice, sqrtPriceAtTick, sqrtBase, updatePosition,
      initOrUpdateTick, initOrUpdatePosition, Pool.calcActualAmounts,
      calcAmount0Delta, calcAmount1Delta,
      Pool.updateLiquidityIfActivePosition, setPool,
      updateFeeAccumulatorPosition, sendCoinsBetweenPoolAndUser, bankSend,
      getBalance, addBalance, truncateInt, Int.tdiv_one, Rat.neg_num,
      Rat.neg_den, Int.neg_tdiv, Prod.mk.injEq, -Prod.mk_one_one,
      -Prod.mk_zero_zero])

/-- Counterexample for C8 as stated: on a pool whose current tick `5` lies
above the position's upper tick `1`, the full withdrawal succeeds and
returns `(0, 9)` — the token0 amount returned to the user is zero, not
strictly positive. -/
theorem withdrawPosition_returns_zero_amount_counterexample :
    (withdrawPosition s3 5 1 6).1 = .ok (0, 9) := by
  norm_num [withdrawPosition, getPosition, getPositionLiquidity,
    collectIncentives, collectFees, deletePosition, assocDel, getPoolById,
    assocGet, s3, pool3, basePool, validateTickRangeIsValid, maxTick,
    ticksToSqrtPrice, sqrtPriceAtTick, sqrtBase, updatePosition,
    initOrUpdateTick, initOrUpdatePosition, Pool.calcActualAmounts,
    calcAmount0Delta, calcAmount1Delta, Pool.updateLiquidityIfActivePosition,
    setPool, updateFeeAccumulatorPosition, sendCoinsBetweenPoolAndUser,
    bankSend, getBalance, addBalance, truncateInt, Int.tdiv_one, Rat.neg_num,
    Rat.neg_den, Int.neg_tdiv, Prod.mk.injEq, -Prod.mk_one_one,
    -Prod.mk_zero_zero]



/-- C10.  The only magnitude validation `withdrawPosition` applies to the
requested amount is the strictly-greater-than-available check
(lp.go:139): a strictly negative request against a position with
nonnegative liquidity can never fail that check, and on success the
liquidity delta `-requested` is strictly positive — the position's stored
liquidity GROWS — while the call still moves the absolute values of the
resulting amounts from the pool address to the owner instead of rejecting
the request. -/
theorem withdrawPosition_negative_request_adds_liquidity
    (s : State) (owner pid : Nat) (req : ℚ) (position : Position)
    (hpos : getPosition s pid = .ok position)
    (hlq : 0 ≤ position.liquidity)
    (hreq : req < 0) :
    (∀ a b s₃, withdrawPosition s owner pid req ≠
      (.error (.insufficientLiquidity a b), s₃)) ∧
    (∀ w0 w1 s₂, withdrawPosition s owner pid req = (.ok (w0, w1), s₂) →
      ∃ pool rw₀ sInc a0 a1 sUpd sSent,
        getPoolById s position.poolId = .ok pool ∧
        collectIncentives s owner pid = .ok (rw₀, sInc) ∧
        updatePosition sInc position.poolId owner position.lowerTick
          position.upperTick (-req) position.joinTime pid =
          (.ok (a0, a1), sUpd) ∧
        (0 : ℚ) < -req ∧
        sendCoinsBetweenPoolAndUser sUpd pool.token0 pool.token1 |a0| |a1|
          pool.address owner = .ok sSent ∧
        s₂ = sSent ∧
        assocGet s₂.positions pid =
          some { position with liquidity := position.liquidity + -req } ∧
        position.liquidity <
          ({ position with
            liquidity := position.liquidity + -req }).liquidity) := by
  constructor
  · intro a b s₃ hcon
    obtain ⟨position', hpos', ha, hb, hlt, _, _, _, _, _, _⟩ :=
      withdrawPosition_insufficient_error_inv _ _ _ _ _ _ _ hcon
    rw [hpos] at hpos'
    injection hpos' with he
    subst he
    linarith
  · intro w0 w1 s₂ h
    obtain ⟨position', pool, hpos', hpool, hle, rw₀, sInc, a0, a1, sUpd, sSent,
      hinc, hupd, hsend, hw0, hw1, hfull, hpart⟩ :=
      withdrawPosition_ok_spec _ _ _ _ _ _ _ h
    rw [hpos] at hpos'
    injection hpos' with he
    subst he
    obtain ⟨entry, hget, hrw, iInc, iCl, iPools, iTicks, iPos, iFee, iBal,
      iNid⟩ := collectIncentives_ok _ _ _ _ _ hinc
    obtain ⟨poolU, hpoolU, hlhU, hsqrtU, ha0, ha1, uPools, uTicks, uPos, uInc,
      uFee, uBal, uCl, uNid⟩ := updatePosition_ok_spec _ _ _ _ _ _ _ _ _ _ _ hupd
    have hne : req ≠ position.liquidity := by
      intro he₂
      rw [he₂] at hreq
      linarith
    have hs₂ := hpart hne
    subst hs₂
    have hposGet : assocGet s.positions pid = some position :=
      (getPosition_ok_iff s pid position).mp hpos
    obtain ⟨hs0a, hs1a, sPools, sTicks, sPos, sFee, sIncA, sCl, sNid⟩ :=
      sendCoins_ok_fields _ _ _ _ _ _ _ _ hsend
    refine ⟨pool, rw₀, sInc, a0, a1, sUpd, s₂, hpool, hinc, hupd,
      by linarith, hsend, rfl, ?_, ?_⟩
    · rw [sPos, uPos, assocGet_set_self, iPos, hposGet]
    · show position.liquidity < position.liquidity + -req
      linarith

/-- Witness for C10: requesting `-6` against position `1` (liquidity `6`)
passes the availability check, succeeds, doubles the stored liquidity to
`12`, and still routes a pool-to-owner transfer. -/
theorem withdrawPosition_negative_request_adds_liquidity_witness :
    (withdrawPosition s2 5 1 (-6) ≠
      (.error (.insufficientLiquidity (-6) 6),
       (withdrawPosition s2 5 1 (-6)).2)) ∧
    (∃ pool rw₀ sInc a0 a1 sUpd sSent,
      getPoolById s2 1 = .ok pool ∧
      collectIncentives s2 5 1 = .ok (rw₀, sInc) ∧
      updatePosition sInc 1 5 (-1) 1 (-(-6)) 7 1 = (.ok (a0, a1), sUpd) ∧
      (0 : ℚ) < -(-6) ∧
      sendCoinsBetweenPoolAndUser sUpd pool.token0 pool.token1 |a0| |a1|
        pool.address 5 = .ok sSent ∧
      (withdrawPosition s2 5 1 (-6)).2 = sSent ∧
      assocGet (withdrawPosition s2 5 1 (-6)).2.positions 1 =
        some { (⟨1, 5, -1, 1, 7, 6⟩ : Position) with
          liquidity := (⟨1, 5, -1, 1, 7, 6⟩ : Position).liquidity + -(-6) } ∧
      (⟨1, 5, -1, 1, 7, 6⟩ : Position).liquidity <
        ({ (⟨1, 5, -1, 1, 7, 6⟩ : Position) with
          liquidity := (⟨1, 5, -1, 1, 7, 6⟩ : Position).liquidity
            + -(-6) }).liquidity) :=
  ⟨(withdrawPosition_negative_request_adds_liquidity s2 5 1 (-6)
      ⟨1, 5, -1, 1, 7, 6⟩ rfl (by norm_num) (by norm_num)).1
      (-6) 6 (withdrawPosition s2 5 1 (-6)).2,
   (withdrawPosition_negative_request_adds_liquidity s2 5 1 (-6)
      ⟨1, 5, -1, 1, 7, 6⟩ rfl (by norm_num) (by norm_num)).2
      (-1) (-6) (withdrawPosition s2 5 1 (-6)).2
      (by norm_num [withdrawPosition, getPosition, getPositionLiquidity,
        collectIncentives, getPoolById, assocGet, s2, basePool,
        validateTickRangeIsValid, maxTick, ticksToSqrtPrice, sqrtPriceAtTick,
        sqrtBase, updatePosition, initOrUpdateTick, initOrUpdatePosition,
        Pool.calcActualAmounts, calcAmount0Delta, calcAmount1Delta,
        Pool.updateLiquidityIfActivePosition, setPool,
        updateFeeAccumulatorPosition, sendCoinsBetweenPoolAndUser, bankSend,
        getBalance, addBalance, truncateInt, Int.tdiv_one, Rat.neg_num,
        Rat.neg_den, Int.neg_tdiv, Prod.mk.injEq, -Prod.mk_one_one,
        -Prod.mk_zero_zero])⟩



/-- `updatePosition` never touches the position-id counter, on any path. -/
theorem updatePosition_nid (s : State) (poolId owner : Nat) (lo hi : ℤ)
    (δ : ℚ) (jt pid : Nat) (res : Except CLError (ℤ × ℤ)) (s₁ : State)
    (h : updatePosition s poolId owner lo hi δ jt pid = (res, s₁)) :
    s₁.nextPositionId = s.nextPositionId := by
  unfold updatePosition at h
  iterate 10 all_goals (first | split at h | (try simp only [] at h))
  all_goals injection h with h₁ h₂
  all_goals subst h₂
  all_goals try rfl
  · rename_i xB sA ht1 xC e ht2
    obtain ⟨p, _, _, _, _, _, _, _, _, _, hnA⟩ :=
      initOrUpdateTick_ok _ _ _ _ _ _ _ ht1
    exact hnA
  · rename_i sA ht1 xC sB ht2 xD e hp
    obtain ⟨p, _, _, _, _, _, _, _, _, _, hnA⟩ :=
      initOrUpdateTick_ok _ _ _ _ _ _ _ ht1
    obtain ⟨q, _, _, _, _, _, _, _, _, _, hnB⟩ :=
      initOrUpdateTick_ok _ _ _ _ _ _ _ ht2
    exact hnB.trans hnA
  · rename_i sA ht1 xC sB ht2 xD sC hp xE e hs
    obtain ⟨p, _, _, _, _, _, _, _, _, _, hnA⟩ :=
      initOrUpdateTick_ok _ _ _ _ _ _ _ ht1
    obtain ⟨q, _, _, _, _, _, _, _, _, _, hnB⟩ :=
      initOrUpdateTick_ok _ _ _ _ _ _ _ ht2
    obtain ⟨_, _, _, _, _, _, _, hnC⟩ :=
      initOrUpdatePosition_ok _ _ _ _ _ _ _ _ _ hp
    exact hnC.trans (hnB.trans hnA)
  · rename_i sA ht1 xC sB ht2 xD sC hp xE sL sU hs
    obtain ⟨p, _, _, _, _, _, _, _, _, _, hnA⟩ :=
      initOrUpdateTick_ok _ _ _ _ _ _ _ ht1
    obtain ⟨q, _, _, _, _, _, _, _, _, _, hnB⟩ :=
      initOrUpdateTick_ok _ _ _ _ _ _ _ ht2
    obtain ⟨_, _, _, _, _, _, _, hnC⟩ :=
      initOrUpdatePosition_ok _ _ _ _ _ _ _ _ _ hp
    rw [(updateFeeAccumulatorPosition_rest _ _ _).2.2.2.2.2.2,
      (setPool_rest _ _ _).2.2.2.2.2.2, hnC, hnB, hnA]

/-- `withdrawPosition` never touches the position-id counter, on any path. -/
theorem withdrawPosition_nid (s : State) (owner pid : Nat) (req : ℚ)
    (res : Except CLError (ℤ × ℤ)) (s₂ : State)
    (h : withdrawPosition s owner pid req = (res, s₂)) :
    s₂.nextPositionId = s.nextPositionId := by
  unfold withdrawPosition at h
  iterate 14 all_goals (first | split at h | (try simp only [] at h))
  all_goals injection h with h₁ h₂
  all_goals subst h₂
  all_goals try rfl
  · rename_i f sInc hinc hlt
    obtain ⟨en, _, _, _, _, _, _, _, _, _, hnI⟩ :=
      collectIncentives_ok _ _ _ _ _ hinc
    exact hnI
  · rename_i f sInc hinc hnlt heqf xA e sU hupd
    obtain ⟨en, _, _, _, _, _, _, _, _, _, hnI⟩ :=
      collectIncentives_ok _ _ _ _ _ hinc
    exact (updatePosition_nid _ _ _ _ _ _ _ _ _ _ hupd).trans hnI
  · rename_i f sInc hinc hnlt heqf xA a0 a1 c3 hupd xB e hsendE
    obtain ⟨en, _, _, _, _, _, _, _, _, _, hnI⟩ :=
      collectIncentives_ok _ _ _ _ _ hinc
    exact (updatePosition_nid _ _ _ _ _ _ _ _ _ _ hupd).trans hnI
  · rename_i f sInc hinc hnlt heqf xA a0 a1 c3 hupd xB sSent hsend xC e hfeesE
    obtain ⟨en, _, _, _, _, _, _, _, _, _, hnI⟩ :=
      collectIncentives_ok _ _ _ _ _ hinc
    exact ((sendCoins_ok_fields _ _ _ _ _ _ _ _ hsend).2.2.2.2.2.2.2.2).trans
      ((updatePosition_nid _ _ _ _ _ _ _ _ _ _ hupd).trans hnI)
  · rename_i f sInc hinc hnlt heqf xA a0 a1 c3 hupd xB sSent hsend xC f1 s4
      hfees xD e hinc2E
    obtain ⟨en, _, _, _, _, _, _, _, _, _, hnI⟩ :=
      collectIncentives_ok _ _ _ _ _ hinc
    obtain ⟨en₂, _, _, _, _, _, _, _, _, _, hnF⟩ := collectFees_ok _ _ _ _ _ hfees
    exact hnF.trans
      (((sendCoins_ok_fields _ _ _ _ _ _ _ _ hsend).2.2.2.2.2.2.2.2).trans
        ((updatePosition_nid _ _ _ _ _ _ _ _ _ _ hupd).trans hnI))
  · rename_i f sInc hinc hnlt heqf xA a0 a1 c3 hupd xB sSent hsend xC f1 s4
      hfees xD f2 s5 hinc2 xE e hdelE
    obtain ⟨en, _, _, _, _, _, _, _, _, _, hnI⟩ :=
      collectIncentives_ok _ _ _ _ _ hinc
    obtain ⟨en₂, _, _, _, _, _, _, _, _, _, hnF⟩ := collectFees_ok _ _ _ _ _ hfees
    obtain ⟨en₃, _, _, _, _, _, _, _, _, _, hnI2⟩ :=
      collectIncentives_ok _ _ _ _ _ hinc2
    exact hnI2.trans (hnF.trans
      (((sendCoins_ok_fields _ _ _ _ _ _ _ _ hsend).2.2.2.2.2.2.2.2).trans
        ((updatePosition_nid _ _ _ _ _ _ _ _ _ _ hupd).trans hnI)))
  · rename_i f sInc hinc hnlt heqf xA a0 a1 c3 hupd xB sSent hsend xC f1 s4
      hfees xD f2 s5 hinc2 xE s6 hdel
    obtain ⟨en, _, _, _, _, _, _, _, _, _, hnI⟩ :=
      collectIncentives_ok _ _ _ _ _ hinc
    obtain ⟨en₂, _, _, _, _, _, _, _, _, _, hnF⟩ := collectFees_ok _ _ _ _ _ hfees
    obtain ⟨en₃, _, _, _, _, _, _, _, _, _, hnI2⟩ :=
      collectIncentives_ok _ _ _ _ _ hinc2
    exact ((deletePosition_ok _ _ _ _ _ hdel).2.2.2.2.2.2.2).trans
      (hnI2.trans (hnF.trans
        (((sendCoins_ok_fields _ _ _ _ _ _ _ _ hsend).2.2.2.2.2.2.2.2).trans
          ((updatePosition_nid _ _ _ _ _ _ _ _ _ _ hupd).trans hnI))))
  · rename_i f sInc hinc hnlt hne xA e sU hupd
    obtain ⟨en, _, _, _, _, _, _, _, _, _, hnI⟩ :=
      collectIncentives_ok _ _ _ _ _ hinc
    exact (updatePosition_nid _ _ _ _ _ _ _ _ _ _ hupd).trans hnI
  · rename_i f sInc hinc hnlt hne xA a0 a1 c3 hupd xB e hsendE
    obtain ⟨en, _, _, _, _, _, _, _, _, _, hnI⟩ :=
      collectIncentives_ok _ _ _ _ _ hinc
    exact (updatePosition_nid _ _ _ _ _ _ _ _ _ _ hupd).trans hnI
  · rename_i f sInc hinc hnlt hne xA a0 a1 c3 hupd xB sSent hsend
    obtain ⟨en, _, _, _, _, _, _, _, _, _, hnI⟩ :=
      collectIncentives_ok _ _ _ _ _ hinc
    exact ((sendCoins_ok_fields _ _ _ _ _ _ _ _ hsend).2.2.2.2.2.2.2.2).trans
      ((updatePosition_nid _ _ _ _ _ _ _ _ _ _ hupd).trans hnI)

/-- A failing `createPosition` never decreases the position-id counter: it
returns either the untouched outer context (pre-increment validation) or
the outer context with the increment already applied. -/
theorem createPosition_error_nid (s : State) (poolId owner : Nat)
    (a0d a1d a0m a1m lo hi : ℤ) (bt : Nat) (e : CLError) (s₁ : State)
    (h : createPosition s poolId owner a0d a1d a0m a1m lo hi bt =
      (.error e, s₁)) :
    s.nextPositionId ≤ s₁.nextPositionId := by
  unfold createPosition at h
  iterate 14 all_goals (first | split at h | (try simp only [] at h))
  all_goals injection h with h₁ h₂
  all_goals try exact Except.noConfusion h₁
  all_goals subst h₂
  all_goals first
    | exact Nat.le_refl _
    | exact Nat.le_succ _

/-- A successful `createPosition` hands out exactly the outer counter value
and leaves the counter incremented by one. -/
theorem createPosition_ok_nid (s : State) (poolId owner : Nat)
    (a0d a1d a0m a1m lo hi : ℤ) (bt : Nat) (r : CreateResult) (s₁ : State)
    (h : createPosition s poolId owner a0d a1d a0m a1m lo hi bt = (.ok r, s₁)) :
    r.positionId = s.nextPositionId ∧
    s₁.nextPositionId = s.nextPositionId + 1 := by
  unfold createPosition at h
  iterate 14 all_goals (first | split at h | (try simp only [] at h))
  all_goals try (injection h with h₁ h₂; exact Except.noConfusion h₁)
  rename_i xA pool hpool xB uu hval xC sL sU hsqrt xD pool₁ cache₁ hinit hδ
    xE a0v a1v cache₃ hupd h0m h1m xF cache₄ hsend
  injection h with h₁ h₂
  injection h₁ with h₃
  subst h₂
  subst h₃
  have hc₁ : cache₁.nextPositionId = s.nextPositionId + 1 := by
    unfold initialPoolStep at hinit
    split at hinit
    case _ hini =>
      obtain ⟨_, _, t₀, _, _, _, _, _, _, _, _, _, hn⟩ :=
        initializeInitialPositionForPool_ok _ _ _ _ _ _ _ hinit
      rw [hn]
    case _ hini =>
      injection hinit with h₄
      injection h₄ with h₅ h₆
      subst h₆
      rfl
  refine ⟨rfl, ?_⟩
  rw [(sendCoins_ok_fields _ _ _ _ _ _ _ _ hsend).2.2.2.2.2.2.2.2,
    updatePosition_nid _ _ _ _ _ _ _ _ _ _ hupd,
    (initializeFeeAccumulatorPosition_rest _ _).2.2.2.2.2.2, hc₁]

/-- A `createPosition` that fails the minimum-amount check — an error
raised after the outer-context id increment — still consumes its id: the
returned state's counter is the caller's counter plus one. -/
theorem createPosition_min_error_nid (s : State) (poolId owner : Nat)
    (a0d a1d a0m a1m lo hi : ℤ) (bt : Nat) (a m : ℤ) (tok : Bool) (s₁ : State)
    (h : createPosition s poolId owner a0d a1d a0m a1m lo hi bt =
      (.error (.insufficientLiquidityCreated a m tok), s₁)) :
    s₁.nextPositionId = s.nextPositionId + 1 := by
  unfold createPosition at h
  iterate 14 all_goals (first | split at h | (try simp only [] at h))
  all_goals injection h with h₁ h₂
  all_goals try exact Except.noConfusion h₁
  all_goals subst h₂
  all_goals try rfl
  · rename_i e he
    injection h₁ with h₃
    rw [getPoolById_error _ _ _ he] at h₃
    exact CLError.noConfusion h₃
  · rename_i e he
    injection h₁ with h₃
    rw [validateTickRangeIsValid_error _ _ _ _ _ he] at h₃
    exact CLError.noConfusion h₃
  · rename_i e he
    injection h₁ with h₃
    rw [ticksToSqrtPrice_error _ _ _ _ he] at h₃
    exact CLError.noConfusion h₃

/-- Id-allocation invariant over whole operation sequences: the counter
never decreases, every id handed out lies in the window between the
starting and the final counter, and the handed-out ids are strictly
increasing in call order. -/
theorem runOps_ids_spec (ops : List Op) : ∀ s : State,
    s.nextPositionId ≤ (runOps s ops).1.nextPositionId ∧
    (∀ i ∈ (runOps s ops).2,
      s.nextPositionId ≤ i ∧ i < (runOps s ops).1.nextPositionId) ∧
    (runOps s ops).2.Pairwise (· < ·) := by
  induction ops with
  | nil =>
    intro s
    exact ⟨Nat.le_refl _, fun i hi => absurd hi (List.not_mem_nil i),
      List.Pairwise.nil⟩
  | cons op rest ih =>
    intro s
    cases op with
    | create poolId owner a0d a1d a0m a1m lo hi bt =>
      rcases hc : createPosition s poolId owner a0d a1d a0m a1m lo hi bt with
        ⟨res, s₁⟩
      cases res with
      | ok r =>
        have hrw : runOps s
            (Op.create poolId owner a0d a1d a0m a1m lo hi bt :: rest)
            = ((runOps s₁ rest).1, r.positionId :: (runOps s₁ rest).2) := by
          simp only [runOps]
          rw [hc]
        obtain ⟨hmono, hmem, hpair⟩ := ih s₁
        obtain ⟨hpid, hnid⟩ :=
          createPosition_ok_nid _ _ _ _ _ _ _ _ _ _ _ _ hc
        rw [hrw]
        dsimp only
        refine ⟨?_, ?_, ?_⟩
        · omega
        · intro i hi
          rcases List.mem_cons.mp hi with hEq | hMem
          · subst hEq
            exact ⟨by omega, by omega⟩
          · obtain ⟨hA, hB⟩ := hmem i hMem
            exact ⟨by omega, hB⟩
        · refine List.Pairwise.cons ?_ hpair
          intro j hj
          obtain ⟨hA, hB⟩ := hmem j hj
          omega
      | error e =>
        have hrw : runOps s
            (Op.create poolId owner a0d a1d a0m a1m lo hi bt :: rest)
            = runOps s₁ rest := by
          simp only [runOps]
          rw [hc]
        have hmono₀ := createPosition_error_nid _ _ _ _ _ _ _ _ _ _ _ _ hc
        obtain ⟨hmono, hmem, hpair⟩ := ih s₁
        rw [hrw]
        refine ⟨by omega, ?_, hpair⟩
        intro i hi
        obtain ⟨hA, hB⟩ := hmem i hi
        exact ⟨by omega, hB⟩
    | withdraw owner pid req =>
      have hrw : runOps s (Op.withdraw owner pid req :: rest)
          = runOps (withdrawPosition s owner pid req).2 rest := by
        simp only [runOps]
      have hw : ((withdrawPosition s owner pid req).2).nextPositionId
          = s.nextPositionId :=
        withdrawPosition_nid s owner pid req
          (withdrawPosition s owner pid req).1
          (withdrawPosition s owner pid req).2 rfl
      obtain ⟨hmono, hmem, hpair⟩ := ih (withdrawPosition s owner pid req).2
      rw [hrw]
      refine ⟨by omega, ?_, hpair⟩
      intro i hi
      obtain ⟨hA, hB⟩ := hmem i hi
      exact ⟨by omega, hB⟩

/-- C9.  Position ids are handed out strictly increasing and never reused
across any sequence of create/withdraw operations; a successful
`createPosition` hands out exactly the outer counter and bumps it by one,
and a create that fails the minimum-amount check — after the outer-context
increment at lp.go:54 — still consumes its id. -/
theorem position_ids_strictly_increasing (s : State) (ops : List Op) :
    (runOps s ops).2.Pairwise (· < ·) ∧
    (∀ i ∈ (runOps s ops).2,
      s.nextPositionId ≤ i ∧ i < (runOps s ops).1.nextPositionId) ∧
    (∀ poolId owner a0d a1d a0m a1m lo hi bt r s₁,
      createPosition s poolId owner a0d a1d a0m a1m lo hi bt = (.ok r, s₁) →
      r.positionId = s.nextPositionId ∧
      s₁.nextPositionId = s.nextPositionId + 1) ∧
    (∀ poolId owner a0d a1d a0m a1m lo hi bt a m tok s₁,
      createPosition s poolId owner a0d a1d a0m a1m lo hi bt =
        (.error (.insufficientLiquidityCreated a m tok), s₁) →
      s₁.nextPositionId = s.nextPositionId + 1) := by
  obtain ⟨hmono, hmem, hpair⟩ := runOps_ids_spec ops s
  refine ⟨hpair, hmem, ?_, ?_⟩
  · intro poolId owner a0d a1d a0m a1m lo hi bt r s₁ hc
    exact createPosition_ok_nid _ _ _ _ _ _ _ _ _ _ _ _ hc
  · intro poolId owner a0d a1d a0m a1m lo hi bt a m tok s₁ hc
    exact createPosition_min_error_nid _ _ _ _ _ _ _ _ _ _ _ _ _ _ hc


end CL
